import Mathlib

/-!
Object factory (`FactoryMethod-ObjectFactory.cpp`) and `SOLID.cpp`

A shallow embedding of the singleton `VehicleFactory`, of the vehicle classes and of the two
clients, then of the journal and the product filters of `SOLID.cpp`, followed by theorems
about registration, removal and creation, about the saved text, and about the filters.

Modelling conventions
* `VehicleType` is an `enum class` over `int`; it is embedded as `Int`, so keys
  other than the three enumerators are covered.
* A `Vehicle*` is `Option Nat`: `none` is `nullptr`, `some a` is the address `a`.
* `World` is the observable program state: live heap objects with their dynamic
  class, and the text written so far to `std::cout` and `std::cerr`.
* A `CreateVehicleCallBack` (a `Vehicle* (*)()`) is a state transformer on
  `World` returning a pointer. A callback of this kind acts on the heap and the
  streams only, as the shipped ones do. Creators that call back into the factory
  are covered by the embedding of section "Creators that may call back into the
  factory", of which this one is the restriction.
* `new` picks an address that no live object occupies.
* `Machine` pairs the world with a ghost trace of the callbacks invoked so far.
* `std::map` is embedded as an association list kept sorted by key, with
  `find`, `insert` (no overwrite) and `erase(key)`.
-/

set_option linter.dupNamespace false

namespace DesignPattern

/-! ## Keys and products -/

/-- Underlying values of `enum class VehicleType`. -/
abbrev VehicleType := Int

def VehicleType.twoWheeler : VehicleType := 2
def VehicleType.threeWheeler : VehicleType := 3
def VehicleType.fourWheeler : VehicleType := 4

/-- Dynamic class of a heap-allocated `Vehicle`: the three classes used with the factory
and the three classes of namespace `Before`. -/
inductive VehicleClass where
  | TwoWheeler
  | ThreeWheeler
  | FourWheeler
  | BeforeTwoWheeler
  | BeforeThreeWheeler
  | BeforeFourWheeler
deriving DecidableEq, Repr

/-- Observable state: live objects (address, dynamic class) and both output streams. -/
structure World where
  heap : List (Nat × VehicleClass)
  cout : String
  cerr : String
deriving DecidableEq, Repr

/-- A `Vehicle*`; `none` is `nullptr`. -/
abbrev VehiclePtr := Option Nat

/-- The type `Vehicle* (*)()`: running the callback may change the world. -/
abbrev CreateVehicleCallBack := World → VehiclePtr × World

/-- World plus the ghost trace of callbacks that have been invoked. -/
structure Machine where
  world : World
  calls : List CreateVehicleCallBack

/-- Addresses of the live objects. -/
def liveAddrs (w : World) : List Nat := w.heap.map Prod.fst

/-- Address handed out by `new`: one that no live object occupies. -/
def freshAddr (heap : List (Nat × VehicleClass)) : Nat :=
  (heap.map Prod.fst).foldr max 0 + 1

/-- Storage allocation part of `new C`: a fresh address now holds an object of class `C`. -/
def allocate (cls : VehicleClass) (w : World) : Nat × World :=
  (freshAddr w.heap, { w with heap := (freshAddr w.heap, cls) :: w.heap })

/-- Text printed by the constructor of each class. -/
def VehicleClass.ctorText : VehicleClass → String
  | .TwoWheeler => "Two wheeler ctor\n"
  | .ThreeWheeler => "Three wheeler ctor\n"
  | .FourWheeler => "Four wheeler ctor\n"
  | .BeforeTwoWheeler => "Two wheeler ctor\n"
  | .BeforeThreeWheeler => "Three wheeler ctor\n"
  | .BeforeFourWheeler => "Four wheeler ctor\n"

/-- Text printed by `printVehicle` of each class. -/
def VehicleClass.printText : VehicleClass → String
  | .TwoWheeler => "Iam a two wheeler\n"
  | .ThreeWheeler => "Iam a three wheeler\n"
  | .FourWheeler => "Iam a four wheeler\n"
  | .BeforeTwoWheeler => "Iam a two wheeler\n"
  | .BeforeThreeWheeler => "Iam a three wheeler\n"
  | .BeforeFourWheeler => "Iam a four wheeler\n"

/-- The expression `new C`: allocate, then run the constructor, which prints to `cout`. -/
def newVehicle (cls : VehicleClass) (w : World) : Nat × World :=
  let r := allocate cls w
  (r.1, { r.2 with cout := r.2.cout ++ cls.ctorText })

/-- `TwoWheeler::create`. -/
def TwoWheeler.create : CreateVehicleCallBack := fun w =>
  let r := newVehicle .TwoWheeler w
  (some r.1, r.2)

/-- `ThreeWheeler::create`. -/
def ThreeWheeler.create : CreateVehicleCallBack := fun w =>
  let r := newVehicle .ThreeWheeler w
  (some r.1, r.2)

/-- `FourWheeler::create`. -/
def FourWheeler.create : CreateVehicleCallBack := fun w =>
  let r := newVehicle .FourWheeler w
  (some r.1, r.2)

/-- Virtual call `p->printVehicle()` on a live object; nothing is printed for a dead address. -/
def printVehicle (a : Nat) (w : World) : World :=
  match w.heap.lookup a with
  | some cls => { w with cout := w.cout ++ cls.printText }
  | none => w

/-! ## `std::map<VehicleType, CreateVehicleCallBack>` -/

/-- `std::map::find`: the value stored under `k`, `none` standing for `end()`. -/
def mapFind {β : Type} (k : VehicleType) : List (VehicleType × β) → Option β
  | [] => none
  | (k', v) :: t => if k = k' then some v else mapFind k t

/-- `std::map::insert`: places the pair in key order; an equal key blocks the insertion. -/
def mapInsert {β : Type} (k : VehicleType) (v : β) :
    List (VehicleType × β) → List (VehicleType × β)
  | [] => [(k, v)]
  | (k', v') :: t =>
    if k < k' then (k, v) :: (k', v') :: t
    else if k = k' then (k', v') :: t
    else (k', v') :: mapInsert k v t

/-- `std::map::erase(key)`: drops every element whose key equals `k`. -/
def mapErase {β : Type} (k : VehicleType) : List (VehicleType × β) → List (VehicleType × β)
  | [] => []
  | (k', v) :: t => if k = k' then mapErase k t else (k', v) :: mapErase k t

/-- Keys stored in a map, in iteration order. -/
def mapKeys {β : Type} (m : List (VehicleType × β)) : List VehicleType := m.map Prod.fst

/-! ## `VehicleFactory` -/

/-- The only data member of `VehicleFactory`. -/
structure VehicleFactory where
  _vehicleCallBackMap : List (VehicleType × CreateVehicleCallBack)

/-- The private constructor `VehicleFactory() {}`: an empty map. -/
def VehicleFactory.new : VehicleFactory := ⟨[]⟩

/-- Call through a function pointer, recorded in the ghost trace. -/
def invoke (createFn : CreateVehicleCallBack) (m : Machine) : VehiclePtr × Machine :=
  ((createFn m.world).1, { world := (createFn m.world).2, calls := m.calls ++ [createFn] })

/-- Write of the diagnostic line to `std::cerr`. -/
def reportUnknown (m : Machine) : Machine :=
  { m with world := { m.world with cerr := m.world.cerr ++ "Unknown vechicle type\n" } }

/-- `VehicleFactory::CreateVehicle`. -/
def VehicleFactory.CreateVehicle (f : VehicleFactory) (type : VehicleType) (m : Machine) :
    VehiclePtr × Machine :=
  match mapFind type f._vehicleCallBackMap with
  | none => (none, reportUnknown m)
  | some createFn => invoke createFn m

/-- `VehicleFactory::RegisterVehicle`. -/
def VehicleFactory.RegisterVehicle (f : VehicleFactory) (type : VehicleType)
    (createFn : CreateVehicleCallBack) : VehicleFactory :=
  match mapFind type f._vehicleCallBackMap with
  | none => ⟨mapInsert type createFn f._vehicleCallBackMap⟩
  | some _ => f

/-- `VehicleFactory::UnregisterVehicle`. -/
def VehicleFactory.UnregisterVehicle (f : VehicleFactory) (type : VehicleType) :
    VehicleFactory :=
  ⟨mapErase type f._vehicleCallBackMap⟩

/-! ## The singleton accessor -/

/-- Process-wide state of the singleton: the static `_instance` (`none` is `nullptr`) and
the `VehicleFactory` objects constructed so far; a pointer is a position in that store. -/
structure Process where
  _instance : Option Nat
  factories : List VehicleFactory

/-- State after static initialisation: `_instance = nullptr`, nothing constructed. -/
def Process.start : Process := ⟨none, []⟩

/-- `VehicleFactory::instance`: constructs the factory when `_instance` is null. -/
def VehicleFactory.instance (p : Process) : Nat × Process :=
  match p._instance with
  | none =>
    (p.factories.length,
      { _instance := some p.factories.length, factories := p.factories ++ [VehicleFactory.new] })
  | some a => (a, p)

/-- `VehicleFactory::instance()->RegisterVehicle(type, createFn)`; `none` if the pointer
returned by `instance()` designates no object. -/
def instanceRegisterVehicle (type : VehicleType) (createFn : CreateVehicleCallBack)
    (p : Process) : Option Process :=
  match (VehicleFactory.instance p).2.factories[(VehicleFactory.instance p).1]? with
  | none => none
  | some f =>
    some { (VehicleFactory.instance p).2 with
      factories := (VehicleFactory.instance p).2.factories.set (VehicleFactory.instance p).1
        (f.RegisterVehicle type createFn) }

/-- `VehicleFactory::instance()->CreateVehicle(type)`, the body of `Client::Client`. -/
def instanceCreateVehicle (type : VehicleType) (p : Process) (m : Machine) :
    Option (VehiclePtr × Process × Machine) :=
  match (VehicleFactory.instance p).2.factories[(VehicleFactory.instance p).1]? with
  | none => none
  | some f => some ((f.CreateVehicle type m).1, (VehicleFactory.instance p).2,
      (f.CreateVehicle type m).2)

/-- State reached by `n` further calls of `instance()`. -/
def instanceCalls : Nat → Process → Process
  | 0, p => p
  | n + 1, p => instanceCalls n (VehicleFactory.instance p).2

/-! ## Call sequences -/

/-- One call on the factory. -/
inductive Op where
  | register (type : VehicleType) (createFn : CreateVehicleCallBack)
  | unregister (type : VehicleType)
  | create (type : VehicleType)

/-- Effect of one call on the factory and on the machine. -/
def step (s : VehicleFactory × Machine) : Op → VehicleFactory × Machine
  | .register type createFn => (s.1.RegisterVehicle type createFn, s.2)
  | .unregister type => (s.1.UnregisterVehicle type, s.2)
  | .create type => (s.1, (s.1.CreateVehicle type s.2).2)

/-- Effect of a finite sequence of calls, first call first. -/
def run (ops : List Op) (s : VehicleFactory × Machine) : VehicleFactory × Machine :=
  ops.foldl step s

/-! ## Concrete states used in examples -/

/-- World at program start: no objects, nothing printed. -/
def World.start : World := ⟨[], "", ""⟩

/-- Machine at program start. -/
def Machine.start : Machine := ⟨World.start, []⟩

/-- Factory after the three registrations of `main`. -/
def mainFactory : VehicleFactory :=
  ((VehicleFactory.new.RegisterVehicle VehicleType.twoWheeler TwoWheeler.create).RegisterVehicle
    VehicleType.threeWheeler ThreeWheeler.create).RegisterVehicle
    VehicleType.fourWheeler FourWheeler.create

/-- A callback of the shape `static TwoWheeler v; return &v;`: always the address `1`. -/
def staticVehicleCreate : CreateVehicleCallBack := fun w => (some 1, w)

/-- World in which the object behind `staticVehicleCreate` is live at address `1`. -/
def staticVehicleWorld : World := ⟨[(1, .TwoWheeler)], "", ""⟩

/-! ## Creators that may call back into the factory

A function of type `Vehicle* (*)()` may call `VehicleFactory::instance()` and through it
`RegisterVehicle`, `UnregisterVehicle` or `CreateVehicle`. To admit such creators a function
pointer is embedded as a name, the program text as a table that gives the behaviour of each
name, and the state a creator acts on holds the map of the singleton next to the world. -/

/-- A function pointer value: the name of a function of the program. -/
abbrev FnPtr := Nat

/-- What a creator can reach: the world and the `_vehicleCallBackMap` of the singleton. -/
structure Reentrant.State where
  world : World
  _vehicleCallBackMap : List (VehicleType × FnPtr)

/-- Behaviour of a function of type `Vehicle* (*)()`. -/
abbrev Reentrant.Creator := Reentrant.State → VehiclePtr × Reentrant.State

/-- The program text: the behaviour of the function behind each function pointer. -/
abbrev Reentrant.Code := FnPtr → Reentrant.Creator

/-- Write of the diagnostic line to `std::cerr`. -/
def Reentrant.reportUnknown (s : Reentrant.State) : Reentrant.State :=
  { s with world := { s.world with cerr := s.world.cerr ++ "Unknown vechicle type\n" } }

/-- `VehicleFactory::CreateVehicle`, with `it->second()` looked up in the program text. -/
def Reentrant.CreateVehicle (code : Reentrant.Code) (type : VehicleType) (s : Reentrant.State) :
    VehiclePtr × Reentrant.State :=
  match mapFind type s._vehicleCallBackMap with
  | none => (none, Reentrant.reportUnknown s)
  | some createFn => code createFn s

/-- `VehicleFactory::RegisterVehicle` on the map of the singleton. -/
def Reentrant.RegisterVehicle (type : VehicleType) (createFn : FnPtr) (s : Reentrant.State) :
    Reentrant.State :=
  match mapFind type s._vehicleCallBackMap with
  | none => { s with _vehicleCallBackMap := mapInsert type createFn s._vehicleCallBackMap }
  | some _ => s

/-- `VehicleFactory::UnregisterVehicle` on the map of the singleton. -/
def Reentrant.UnregisterVehicle (type : VehicleType) (s : Reentrant.State) : Reentrant.State :=
  { s with _vehicleCallBackMap := mapErase type s._vehicleCallBackMap }

/-- A creator that acts on the world only, seen as a creator of the general kind. -/
def Reentrant.lift (c : CreateVehicleCallBack) : Reentrant.Creator := fun s =>
  ((c s.world).1, { s with world := (c s.world).2 })

/-- A creator of the shape
`VehicleFactory::instance()->UnregisterVehicle(VehicleType::twoWheeler); return new TwoWheeler;`. -/
def selfRemovingCreate : Reentrant.Creator := fun s =>
  (some (newVehicle .TwoWheeler (Reentrant.UnregisterVehicle VehicleType.twoWheeler s).world).1,
    { Reentrant.UnregisterVehicle VehicleType.twoWheeler s with
      world := (newVehicle .TwoWheeler
        (Reentrant.UnregisterVehicle VehicleType.twoWheeler s).world).2 })

/-- A program text: the three shipped creators under the names 0, 1, 2, the self-removing
creator under 3, and the creator returning a static object under every other name. -/
def exampleCode : Reentrant.Code
  | 0 => Reentrant.lift TwoWheeler.create
  | 1 => Reentrant.lift ThreeWheeler.create
  | 2 => Reentrant.lift FourWheeler.create
  | 3 => selfRemovingCreate
  | _ => Reentrant.lift staticVehicleCreate

/-- State after the three registrations of `main`, the creators named as in `exampleCode`. -/
def Reentrant.mainState : Reentrant.State :=
  Reentrant.RegisterVehicle VehicleType.fourWheeler 2
    (Reentrant.RegisterVehicle VehicleType.threeWheeler 1
      (Reentrant.RegisterVehicle VehicleType.twoWheeler 0 ⟨World.start, []⟩))

/-- A creator returns a newly allocated object on every call: a non-null address that was
not live before the call and is live after it. -/
def AllocatesFresh (c : Reentrant.Creator) : Prop :=
  ∀ s : Reentrant.State, ∃ a : Nat,
    (c s).1 = some a ∧ a ∉ liveAddrs s.world ∧ a ∈ liveAddrs (c s).2.world

/-- A creator leaves the map of the factory as it found it. -/
def KeepsRegistry (c : Reentrant.Creator) : Prop :=
  ∀ s : Reentrant.State, (c s).2._vehicleCallBackMap = s._vehicleCallBackMap

/-! ## The two clients -/

/-- The data member of `Client` and of `Before::Client`. -/
structure Client where
  m_vehicle : VehiclePtr

/-- `Client::Client(VehicleType)`: `m_vehicle = VehicleFactory::instance()->CreateVehicle(type)`. -/
def Client.Client (type : VehicleType) (p : Process) (m : Machine) :
    Option (Client × Process × Machine) :=
  match instanceCreateVehicle type p m with
  | none => none
  | some r => some (⟨r.1⟩, r.2.1, r.2.2)

/-- `Before::Client::Client(VehicleType)`: the `switch` over the three enumerators; on the
default branch `m_vehicle` keeps its initial value `nullptr`. -/
def Before.Client.Client (type : VehicleType) (m : Machine) : Client × Machine :=
  if type = VehicleType.twoWheeler then
    (⟨some (newVehicle .BeforeTwoWheeler m.world).1⟩,
      { m with world := (newVehicle .BeforeTwoWheeler m.world).2 })
  else if type = VehicleType.threeWheeler then
    (⟨some (newVehicle .BeforeThreeWheeler m.world).1⟩,
      { m with world := (newVehicle .BeforeThreeWheeler m.world).2 })
  else if type = VehicleType.fourWheeler then
    (⟨some (newVehicle .BeforeFourWheeler m.world).1⟩,
      { m with world := (newVehicle .BeforeFourWheeler m.world).2 })
  else
    (⟨none⟩, { m with world := { m.world with cerr := m.world.cerr ++ "Unknown vehicle type\n" } })

/-- The three `VehicleFactory::instance()->RegisterVehicle(...)` statements of `main`. -/
def mainRegistrations (p : Process) : Option Process :=
  (instanceRegisterVehicle VehicleType.twoWheeler TwoWheeler.create p).bind fun p1 =>
    (instanceRegisterVehicle VehicleType.threeWheeler ThreeWheeler.create p1).bind fun p2 =>
      instanceRegisterVehicle VehicleType.fourWheeler FourWheeler.create p2

/-- Process state after the three registrations of `main`: `_instance` designates the one
factory constructed, which holds the three creators. -/
def mainProcess : Process := ⟨some 0, [mainFactory]⟩

/-- Dynamic class of the object a pointer designates, if it is live. -/
def classOf (a : VehiclePtr) (w : World) : Option VehicleClass :=
  match a with
  | none => none
  | some x => w.heap.lookup x

/-! ## `SOLID.cpp`: the journal of namespace `SRP`

A file system gives the contents of the existing files and tells which names can be opened
for writing. `fstream fs(filename, ios::out)` either opens the file, emptying it, or leaves
the stream closed; the source does not test which. `fs << s << endl` appends `s` and one
newline character to an open stream and does nothing on a closed one. A write to an open
stream is taken to succeed. -/

/-- Contents of the existing files, and the names that can be opened for writing. -/
structure FileSystem where
  content : String → Option String
  canOpen : String → Bool

/-- An `fstream` used for output: whether it is open, and the text sent to it so far. -/
structure FStream where
  is_open : Bool
  text : String

/-- The constructor `fstream fs(filename, ios::out)`. -/
def FStream.openOut (files : FileSystem) (filename : String) : FStream :=
  ⟨files.canOpen filename, ""⟩

/-- One `fs << s`: appended on an open stream, dropped on a closed one. -/
def FStream.put (fs : FStream) (s : String) : FStream :=
  if fs.is_open then { fs with text := fs.text ++ s } else fs

/-- The loop `for (auto &s : entries) fs << s << endl;`. -/
def writeEntries (entries : List String) (fs : FStream) : FStream :=
  entries.foldl (fun fs s => (fs.put s).put "\n") fs

/-- End of the scope of `fs`: an open stream leaves its text as the contents of the file,
a closed one leaves the file system as it was. -/
def FStream.close (fs : FStream) (filename : String) (files : FileSystem) : FileSystem :=
  if fs.is_open then
    { files with content := fun n => if n = filename then some fs.text else files.content n }
  else files

/-- A file system without files in which every name but the empty one can be opened. -/
def FileSystem.blank : FileSystem := ⟨fun _ => none, fun n => n != ""⟩

/-- `SRP::Journal`. -/
structure SRP.Journal where
  m_title : String
  m_entries : List String

/-- `SRP::Journal::add_entries`. -/
def SRP.Journal.add_entries (j : SRP.Journal) (entry : String) : SRP.Journal :=
  { j with m_entries := j.m_entries ++ [entry] }

/-- `SRP::Journal::get_entries`. -/
def SRP.Journal.get_entries (j : SRP.Journal) : List String := j.m_entries

/-- `SRP::Journal::save`. -/
def SRP.Journal.save (j : SRP.Journal) (filename : String) (files : FileSystem) :
    FileSystem :=
  (writeEntries j.m_entries (FStream.openOut files filename)).close filename files

/-- `SRP::SRPJournal`. -/
structure SRP.SRPJournal where
  m_title : String
  m_entries : List String

/-- `SRP::SRPJournal::add_entries`. -/
def SRP.SRPJournal.add_entries (j : SRP.SRPJournal) (entry : String) : SRP.SRPJournal :=
  { j with m_entries := j.m_entries ++ [entry] }

/-- `SRP::SRPJournal::get_entries`. -/
def SRP.SRPJournal.get_entries (j : SRP.SRPJournal) : List String := j.m_entries

/-- `SRP::SavingManager::save`. -/
def SRP.SavingManager.save (j : SRP.SRPJournal) (filename : String) (files : FileSystem) :
    FileSystem :=
  (writeEntries j.get_entries (FStream.openOut files filename)).close filename files

/-- A default-constructed `Journal` after `add_entries` on each element, in order. -/
def SRP.Journal.build (entries : List String) : SRP.Journal :=
  entries.foldl SRP.Journal.add_entries ⟨"", []⟩

/-- A default-constructed `SRPJournal` after `add_entries` on each element, in order. -/
def SRP.SRPJournal.build (entries : List String) : SRP.SRPJournal :=
  entries.foldl SRP.SRPJournal.add_entries ⟨"", []⟩

/-- Number of lines of a text: the number of newline characters in it. -/
def lineCount (text : String) : Nat := text.data.count (Char.ofNat 10)

/-- Number of newline characters inside the entries themselves. -/
def innerNewlines (entries : List String) : Nat :=
  (entries.map fun e => e.data.count (Char.ofNat 10)).sum

/-! ## `SOLID.cpp`: the filters of namespace `OCP`

A `Product*` is represented by the product it points to: the filters only read through
the pointer and copy it. `is_satisfied` is a `const` member and is embedded as a predicate. -/

/-- `enum class COLOR`. -/
inductive OCP.COLOR where
  | RED
  | GREEN
  | BLUE
  | YELLOW
deriving DecidableEq, Repr

/-- `enum class SIZE`. -/
inductive OCP.SIZE where
  | SMALL
  | MEDIUM
  | LARGE
deriving DecidableEq, Repr

/-- `struct Product`. -/
structure OCP.Product where
  m_name : String
  m_color : OCP.COLOR
  m_size : OCP.SIZE
deriving DecidableEq, Repr

/-- `using Items = vector<Product*>`. -/
abbrev OCP.Items := List OCP.Product

/-- `ProductFilter::by_color`. -/
def OCP.ProductFilter.by_color (items : OCP.Items) (e_color : OCP.COLOR) : OCP.Items :=
  items.foldl (fun result i => if i.m_color == e_color then result ++ [i] else result) []

/-- `ProductFilter::by_size`. -/
def OCP.ProductFilter.by_size (items : OCP.Items) (e_size : OCP.SIZE) : OCP.Items :=
  items.foldl (fun result i => if i.m_size == e_size then result ++ [i] else result) []

/-- `ProductFilter::by_size_and_color`. -/
def OCP.ProductFilter.by_size_and_color (items : OCP.Items) (e_size : OCP.SIZE)
    (e_color : OCP.COLOR) : OCP.Items :=
  items.foldl
    (fun result i => if (i.m_size == e_size && i.m_color == e_color) then result ++ [i]
      else result) []

/-- `template <typename T> struct Specification`: the virtual `is_satisfied`. -/
structure OCP.Specification (T : Type) where
  is_satisfied : T → Bool

/-- `ColorSpecification`. -/
def OCP.ColorSpecification (e_color : OCP.COLOR) : OCP.Specification OCP.Product :=
  ⟨fun item => item.m_color == e_color⟩

/-- `SizeSpecification`. -/
def OCP.SizeSpecification (e_size : OCP.SIZE) : OCP.Specification OCP.Product :=
  ⟨fun item => item.m_size == e_size⟩

/-- `AndSpecification`. -/
def OCP.AndSpecification {T : Type} (first second : OCP.Specification T) :
    OCP.Specification T :=
  ⟨fun item => first.is_satisfied item && second.is_satisfied item⟩

/-- `operator&&` on specifications. -/
def OCP.operatorAnd {T : Type} (first second : OCP.Specification T) : OCP.Specification T :=
  OCP.AndSpecification first second

/-- `BetterFilter::filter`. -/
def OCP.BetterFilter.filter (items : OCP.Items) (spec : OCP.Specification OCP.Product) :
    OCP.Items :=
  items.foldl (fun result p => if spec.is_satisfied p then result ++ [p] else result) []

/-- The five products `all` of `main`. -/
def OCP.all : OCP.Items :=
  [⟨"Apple", .GREEN, .SMALL⟩, ⟨"Tree", .GREEN, .LARGE⟩, ⟨"House", .BLUE, .LARGE⟩,
    ⟨"Banana", .YELLOW, .SMALL⟩, ⟨"Mountain", .GREEN, .LARGE⟩]

/-! ## Specifications with state

`is_satisfied` is a virtual `const` member that receives a `Product*`: a specification may
still read and change mutable members, global data, and the product behind the pointer. In
this embedding an item is a pointer, the store gives the product behind each pointer together
with all other mutable data, and `is_satisfied` returns its answer and the store it leaves.
The embedding above is the restriction to specifications that only look at the product. -/

/-- Mutable data a specification can reach: the product behind each `Product*` and any other
mutable data `G`. -/
structure OCP.Store (G : Type) where
  products : Nat → OCP.Product
  globals : G

/-- `Specification<Product>` with the virtual `is_satisfied(Product*)`. -/
structure OCP.Stateful.Specification (G : Type) where
  is_satisfied : Nat → OCP.Store G → Bool × OCP.Store G

/-- `ColorSpecification`: reads `item->m_color`. -/
def OCP.Stateful.ColorSpecification {G : Type} (e_color : OCP.COLOR) :
    OCP.Stateful.Specification G :=
  ⟨fun item st => ((st.products item).m_color == e_color, st)⟩

/-- `SizeSpecification`: reads `item->m_size`. -/
def OCP.Stateful.SizeSpecification {G : Type} (e_size : OCP.SIZE) :
    OCP.Stateful.Specification G :=
  ⟨fun item st => ((st.products item).m_size == e_size, st)⟩

/-- `AndSpecification`: `first.is_satisfied(item) && second.is_satisfied(item)`, the second
call made only when the first returned true. -/
def OCP.Stateful.AndSpecification {G : Type} (first second : OCP.Stateful.Specification G) :
    OCP.Stateful.Specification G :=
  ⟨fun item st =>
    if (first.is_satisfied item st).1 then second.is_satisfied item (first.is_satisfied item st).2
    else (false, (first.is_satisfied item st).2)⟩

/-- `operator&&` on specifications. -/
def OCP.Stateful.operatorAnd {G : Type} (first second : OCP.Stateful.Specification G) :
    OCP.Stateful.Specification G :=
  OCP.Stateful.AndSpecification first second

/-- `BetterFilter::filter`: the result vector and the store left by the calls. -/
def OCP.Stateful.BetterFilter.filter {G : Type} (items : List Nat)
    (spec : OCP.Stateful.Specification G) (st : OCP.Store G) : List Nat × OCP.Store G :=
  items.foldl
    (fun acc p =>
      if (spec.is_satisfied p acc.2).1 then (acc.1 ++ [p], (spec.is_satisfied p acc.2).2)
      else (acc.1, (spec.is_satisfied p acc.2).2))
    ([], st)

/-- The occurrences of the input, in input order, whose `is_satisfied` call returns true when
the calls are made once per item from first to last, each in the store left by the one
before. -/
def OCP.Stateful.acceptedInOrder {G : Type} (spec : OCP.Stateful.Specification G) :
    List Nat → OCP.Store G → List Nat × OCP.Store G
  | [], st => ([], st)
  | p :: t, st =>
    if (spec.is_satisfied p st).1 then
      (p :: (OCP.Stateful.acceptedInOrder spec t (spec.is_satisfied p st).2).1,
        (OCP.Stateful.acceptedInOrder spec t (spec.is_satisfied p st).2).2)
    else OCP.Stateful.acceptedInOrder spec t (spec.is_satisfied p st).2

/-- A specification whose `is_satisfied` leaves the store as it found it. -/
def OCP.Stateful.ReadOnly {G : Type} (spec : OCP.Stateful.Specification G) : Prop :=
  ∀ (p : Nat) (st : OCP.Store G), (spec.is_satisfied p st).2 = st

/-- A pure specification of the restricted embedding, seen as one with state. -/
def OCP.Stateful.ofPure {G : Type} (spec : OCP.Specification OCP.Product) :
    OCP.Stateful.Specification G :=
  ⟨fun item st => (spec.is_satisfied (st.products item), st)⟩

/-- Store of `main`: the pointers 0 to 4 designate the five products, in order. -/
def OCP.mainStore {G : Type} (g : G) : OCP.Store G :=
  ⟨fun a => OCP.all.getD a ⟨"", .RED, .SMALL⟩, g⟩

/-- A specification with a `mutable` call counter that accepts on every other call, starting
with the first. -/
def OCP.Stateful.alternating : OCP.Stateful.Specification Nat :=
  ⟨fun _ st => (st.globals % 2 == 0, { st with globals := st.globals + 1 })⟩

theorem mapFind_mapInsert_self {β : Type} (k : VehicleType) (v : β)
    (l : List (VehicleType × β)) (h : mapFind k l = none) :
    mapFind k (mapInsert k v l) = some v := by
  induction l with
  | nil => simp [mapInsert, mapFind]
  | cons hd t ih =>
    obtain ⟨k', v'⟩ := hd
    simp only [mapFind] at h
    by_cases hk : k = k'
    · simp [hk] at h
    · simp only [hk, if_false] at h
      by_cases hlt : k < k'
      · simp [mapInsert, hlt, mapFind]
      · simp [mapInsert, hlt, hk, mapFind, ih h]

theorem mapFind_mapErase_self {β : Type} (k : VehicleType) (l : List (VehicleType × β)) :
    mapFind k (mapErase k l) = none := by
  induction l with
  | nil => rfl
  | cons hd t ih =>
    obtain ⟨k', v'⟩ := hd
    by_cases hk : k = k'
    · simp [mapErase, hk] at ih ⊢
      exact ih
    · simp [mapErase, hk, mapFind, ih]

theorem mapErase_of_absent {β : Type} (k : VehicleType) (l : List (VehicleType × β))
    (h : mapFind k l = none) : mapErase k l = l := by
  induction l with
  | nil => rfl
  | cons hd t ih =>
    obtain ⟨k', v'⟩ := hd
    simp only [mapFind] at h
    by_cases hk : k = k'
    · simp [hk] at h
    · simp only [hk, if_false] at h
      simp [mapErase, hk, ih h]

theorem mem_mapKeys_mapInsert {β : Type} (k : VehicleType) (v : β)
    (l : List (VehicleType × β)) (x : VehicleType) (hx : x ∈ mapKeys (mapInsert k v l)) :
    x = k ∨ x ∈ mapKeys l := by
  induction l with
  | nil => simpa [mapInsert, mapKeys] using hx
  | cons hd t ih =>
    obtain ⟨k', v'⟩ := hd
    by_cases hlt : k < k'
    · simp only [mapInsert, hlt, if_true, mapKeys, List.map_cons, List.mem_cons] at hx
      simpa [mapKeys] using hx
    · by_cases hk : k = k'
      · subst hk
        simp only [mapInsert, lt_irrefl, if_false, if_true] at hx
        exact Or.inr hx
      · simp only [mapInsert, hlt, hk, if_false, mapKeys, List.map_cons, List.mem_cons] at hx
        rcases hx with hx | hx
        · exact Or.inr (by simp [mapKeys, hx])
        · rcases ih hx with h | h
          · exact Or.inl h
          · exact Or.inr (by simp only [mapKeys, List.map_cons, List.mem_cons]; exact Or.inr h)

/-- Insertion keeps the keys strictly increasing. -/
theorem sorted_mapInsert {β : Type} (k : VehicleType) (v : β) (l : List (VehicleType × β))
    (hs : (mapKeys l).Pairwise (· < ·)) : (mapKeys (mapInsert k v l)).Pairwise (· < ·) := by
  induction l with
  | nil => simp [mapInsert, mapKeys]
  | cons hd t ih =>
    obtain ⟨k', v'⟩ := hd
    simp only [mapKeys, List.map_cons, List.pairwise_cons] at hs
    by_cases hlt : k < k'
    · simp only [mapInsert, hlt, if_true, mapKeys, List.map_cons, List.pairwise_cons]
      refine ⟨?_, hs.1, hs.2⟩
      intro x hx
      rcases List.mem_cons.1 hx with h | h
      · exact h ▸ hlt
      · exact lt_trans hlt (hs.1 x h)
    · by_cases hk : k = k'
      · subst hk
        simp only [mapInsert, lt_irrefl, if_false, if_true, mapKeys, List.map_cons,
          List.pairwise_cons]
        exact ⟨hs.1, hs.2⟩
      · simp only [mapInsert, hlt, hk, if_false, mapKeys, List.map_cons, List.pairwise_cons]
        refine ⟨?_, ih hs.2⟩
        intro x hx
        rcases mem_mapKeys_mapInsert k v t x hx with h | h
        · rw [h]
          exact lt_of_le_of_ne (not_lt.1 hlt) (fun e => hk e.symm)
        · exact hs.1 x h

theorem mapErase_sublist {β : Type} (k : VehicleType) (l : List (VehicleType × β)) :
    List.Sublist (mapErase k l) l := by
  induction l with
  | nil => exact List.Sublist.slnil
  | cons hd t ih =>
    obtain ⟨k', v'⟩ := hd
    by_cases hk : k = k'
    · simp only [mapErase, hk, if_true]
      exact List.Sublist.cons _ (by simpa [hk] using ih)
    · simp only [mapErase, hk, if_false]
      exact List.Sublist.cons₂ _ ih

/-- Removal keeps the keys strictly increasing. -/
theorem sorted_mapErase {β : Type} (k : VehicleType) (l : List (VehicleType × β))
    (hs : (mapKeys l).Pairwise (· < ·)) : (mapKeys (mapErase k l)).Pairwise (· < ·) :=
  List.Pairwise.sublist (List.Sublist.map Prod.fst (mapErase_sublist k l)) hs

/-- In a map with strictly increasing keys a key has one value. -/
theorem sorted_functional {β : Type} (l : List (VehicleType × β))
    (hs : (mapKeys l).Pairwise (· < ·)) (k : VehicleType) (v1 v2 : β)
    (h1 : (k, v1) ∈ l) (h2 : (k, v2) ∈ l) : v1 = v2 := by
  induction l with
  | nil => cases h1
  | cons hd t ih =>
    simp only [mapKeys, List.map_cons, List.pairwise_cons] at hs
    have key : ∀ v, (k, v) ∈ t → hd.1 < k := fun v hv =>
      hs.1 k (List.mem_map.2 ⟨(k, v), hv, rfl⟩)
    rcases List.mem_cons.1 h1 with e1 | m1 <;> rcases List.mem_cons.1 h2 with e2 | m2
    · exact (Prod.mk.inj (e1.trans e2.symm)).2
    · exact absurd (key v2 m2) (by rw [← e1]; exact lt_irrefl k)
    · exact absurd (key v1 m1) (by rw [← e2]; exact lt_irrefl k)
    · exact ih hs.2 m1 m2

/-- Every call keeps the keys of the factory strictly increasing. -/
theorem step_sorted (s : VehicleFactory × Machine) (op : Op)
    (hs : (mapKeys s.1._vehicleCallBackMap).Pairwise (· < ·)) :
    (mapKeys (step s op).1._vehicleCallBackMap).Pairwise (· < ·) := by
  cases op with
  | register type createFn =>
    simp only [step, VehicleFactory.RegisterVehicle]
    cases h : mapFind type s.1._vehicleCallBackMap with
    | none => exact sorted_mapInsert type createFn _ hs
    | some c => exact hs
  | unregister type => exact sorted_mapErase type _ hs
  | create type => exact hs

theorem run_sorted (ops : List Op) (s : VehicleFactory × Machine)
    (hs : (mapKeys s.1._vehicleCallBackMap).Pairwise (· < ·)) :
    (mapKeys (run ops s).1._vehicleCallBackMap).Pairwise (· < ·) := by
  induction ops generalizing s with
  | nil => exact hs
  | cons op t ih => exact ih (step s op) (step_sorted s op hs)

/-! ## Lemmas on the singleton and on allocation -/

theorem instance_of_some (p : Process) (a : Nat) (h : p._instance = some a) :
    VehicleFactory.instance p = (a, p) := by
  simp [VehicleFactory.instance, h]

theorem instance_snd_instance (p : Process) :
    (VehicleFactory.instance p).2._instance = some (VehicleFactory.instance p).1 := by
  cases h : p._instance with
  | none => simp [VehicleFactory.instance, h]
  | some a => simp [VehicleFactory.instance, h]

theorem instanceCalls_of_some (n : Nat) (p : Process) (a : Nat) (h : p._instance = some a) :
    instanceCalls n p = p := by
  induction n with
  | zero => rfl
  | succ n ih => simp [instanceCalls, instance_of_some p a h, ih]

theorem le_foldr_max (l : List Nat) (a : Nat) (h : a ∈ l) : a ≤ l.foldr max 0 := by
  induction l with
  | nil => cases h
  | cons b t ih =>
    rcases List.mem_cons.1 h with e | m
    · simp [e]
    · exact le_trans (ih m) (by simp)

/-- The address chosen by `new` is not the address of a live object. -/
theorem freshAddr_not_live (w : World) : freshAddr w.heap ∉ liveAddrs w := by
  intro h
  have hle := le_foldr_max _ _ h
  simp only [freshAddr, liveAddrs] at hle
  omega

theorem allocatesFresh_new (cls : VehicleClass) :
    AllocatesFresh
      (Reentrant.lift fun w => (some (newVehicle cls w).1, (newVehicle cls w).2)) := by
  intro s
  refine ⟨freshAddr s.world.heap, rfl, freshAddr_not_live s.world, ?_⟩
  simp [Reentrant.lift, newVehicle, allocate, liveAddrs]

theorem keepsRegistry_lift (c : CreateVehicleCallBack) : KeepsRegistry (Reentrant.lift c) :=
  fun _ => rfl

theorem mapFind_map {β γ : Type} (g : β → γ) (k : VehicleType) (l : List (VehicleType × β)) :
    mapFind k (l.map fun e => (e.1, g e.2)) = (mapFind k l).map g := by
  induction l with
  | nil => rfl
  | cons hd t ih =>
    obtain ⟨k0, v0⟩ := hd
    by_cases hk : k = k0
    · simp [mapFind, hk]
    · simp [mapFind, hk, ih]

/-- On a program text whose creators act on the world only, the general `CreateVehicle`
returns the pointer and leaves the world of the restricted one, and keeps the map. -/
theorem reentrant_CreateVehicle_lift (tbl : FnPtr → CreateVehicleCallBack) (k : VehicleType)
    (w : World) (r : List (VehicleType × FnPtr)) (cs : List CreateVehicleCallBack) :
    Reentrant.CreateVehicle (fun fp => Reentrant.lift (tbl fp)) k ⟨w, r⟩
      = ((VehicleFactory.CreateVehicle ⟨r.map fun e => (e.1, tbl e.2)⟩ k ⟨w, cs⟩).1,
          ⟨(VehicleFactory.CreateVehicle ⟨r.map fun e => (e.1, tbl e.2)⟩ k ⟨w, cs⟩).2.world,
            r⟩) := by
  cases h : mapFind k r with
  | none =>
    simp [Reentrant.CreateVehicle, VehicleFactory.CreateVehicle, mapFind_map, h,
      Reentrant.reportUnknown, reportUnknown]
  | some fp =>
    simp [Reentrant.CreateVehicle, VehicleFactory.CreateVehicle, mapFind_map, h,
      Reentrant.lift, invoke]

/-! ## Creation, registration, removal -/

/-- C1: when `k` is mapped to the creator `c`, `CreateVehicle(k)` returns exactly the pointer
that `c()` returns, leaves exactly the world that one run of `c` leaves, extends the trace of
invoked callbacks by the single entry `c`, and its result is null only if `c` returned null. -/
theorem CreateVehicle_registered (f : VehicleFactory) (k : VehicleType)
    (c : CreateVehicleCallBack) (m : Machine)
    (h : mapFind k f._vehicleCallBackMap = some c) :
    f.CreateVehicle k m = ((c m.world).1, ⟨(c m.world).2, m.calls ++ [c]⟩) ∧
      ((f.CreateVehicle k m).1 = none → (c m.world).1 = none) := by
  have e : f.CreateVehicle k m = ((c m.world).1, ⟨(c m.world).2, m.calls ++ [c]⟩) := by
    simp [VehicleFactory.CreateVehicle, h, invoke]
  exact ⟨e, fun hn => by rw [e] at hn; exact hn⟩

theorem CreateVehicle_registered_witness :
    mapFind VehicleType.threeWheeler mainFactory._vehicleCallBackMap
        = some ThreeWheeler.create ∧
      mainFactory.CreateVehicle VehicleType.threeWheeler Machine.start
        = ((ThreeWheeler.create Machine.start.world).1,
            ⟨(ThreeWheeler.create Machine.start.world).2,
              Machine.start.calls ++ [ThreeWheeler.create]⟩) ∧
      (mainFactory.CreateVehicle VehicleType.threeWheeler Machine.start).1 = some 1 :=
  ⟨rfl, (CreateVehicle_registered mainFactory VehicleType.threeWheeler ThreeWheeler.create
    Machine.start rfl).1, rfl⟩

/-- C2: when `k` has no mapping, `CreateVehicle(k)` returns null, invokes no callback, and
appends the one diagnostic line to `cerr` (heap and `cout` untouched); and when the creator
stored under `k`, if any, never returns null, the result is null exactly when `k` has no
mapping. -/
theorem CreateVehicle_unregistered (f : VehicleFactory) (k : VehicleType) (m : Machine) :
    (mapFind k f._vehicleCallBackMap = none →
      f.CreateVehicle k m =
        (none, ⟨⟨m.world.heap, m.world.cout, m.world.cerr ++ "Unknown vechicle type\n"⟩,
          m.calls⟩)) ∧
    ((∀ c, mapFind k f._vehicleCallBackMap = some c → ∀ w, (c w).1 ≠ none) →
      ((f.CreateVehicle k m).1 = none ↔ mapFind k f._vehicleCallBackMap = none)) := by
  constructor
  · intro h
    simp [VehicleFactory.CreateVehicle, h, reportUnknown]
  · intro hc
    cases h : mapFind k f._vehicleCallBackMap with
    | none => simp [VehicleFactory.CreateVehicle, h]
    | some c => simpa [VehicleFactory.CreateVehicle, h, invoke] using hc c h m.world

theorem CreateVehicle_unregistered_witness :
    mapFind 7 mainFactory._vehicleCallBackMap = none ∧
      mainFactory.CreateVehicle 7 Machine.start =
        (none, ⟨⟨[], "", "Unknown vechicle type\n"⟩, []⟩) ∧
      ((mainFactory.CreateVehicle 7 Machine.start).1 = none ↔
        mapFind 7 mainFactory._vehicleCallBackMap = none) :=
  ⟨rfl, (CreateVehicle_unregistered mainFactory 7 Machine.start).1 rfl,
    (CreateVehicle_unregistered mainFactory 7 Machine.start).2
      (fun c h => by
        have h7 : mapFind 7 mainFactory._vehicleCallBackMap = none := rfl
        rw [h7] at h
        cases h)⟩

/-- C3: if `k` is absent, then after `RegisterVehicle(k, c1)` followed by
`RegisterVehicle(k, c2)` the creator stored under `k` is `c1`, and `CreateVehicle(k)` returns
what `c1()` returns with `c1` as the only callback added to the trace. -/
theorem RegisterVehicle_first_wins (f : VehicleFactory) (k : VehicleType)
    (c1 c2 : CreateVehicleCallBack) (m : Machine)
    (h : mapFind k f._vehicleCallBackMap = none) :
    mapFind k ((f.RegisterVehicle k c1).RegisterVehicle k c2)._vehicleCallBackMap = some c1 ∧
      ((f.RegisterVehicle k c1).RegisterVehicle k c2).CreateVehicle k m
        = ((c1 m.world).1, ⟨(c1 m.world).2, m.calls ++ [c1]⟩) := by
  have h1 : mapFind k (f.RegisterVehicle k c1)._vehicleCallBackMap = some c1 := by
    simp [VehicleFactory.RegisterVehicle, h, mapFind_mapInsert_self]
  have h2 : (f.RegisterVehicle k c1).RegisterVehicle k c2 = f.RegisterVehicle k c1 := by
    simp [VehicleFactory.RegisterVehicle, h, mapFind_mapInsert_self]
  rw [h2]
  exact ⟨h1, by simp [VehicleFactory.CreateVehicle, h1, invoke]⟩

theorem RegisterVehicle_first_wins_witness :
    mapFind 3 VehicleFactory.new._vehicleCallBackMap = none ∧
      mapFind 3 ((VehicleFactory.new.RegisterVehicle 3 ThreeWheeler.create).RegisterVehicle 3
        TwoWheeler.create)._vehicleCallBackMap = some ThreeWheeler.create ∧
      ((VehicleFactory.new.RegisterVehicle 3 ThreeWheeler.create).RegisterVehicle 3
        TwoWheeler.create).CreateVehicle 3 Machine.start
        = ((ThreeWheeler.create Machine.start.world).1,
            ⟨(ThreeWheeler.create Machine.start.world).2,
              Machine.start.calls ++ [ThreeWheeler.create]⟩) :=
  ⟨rfl, RegisterVehicle_first_wins VehicleFactory.new 3 ThreeWheeler.create TwoWheeler.create
    Machine.start rfl⟩

/-- C4: if `k` is already mapped, `RegisterVehicle(k, c)` returns the factory unchanged; and
on any factory, registering `(k, c)` twice gives the same factory as registering it once. -/
theorem RegisterVehicle_existing_noop (f : VehicleFactory) (k : VehicleType)
    (c : CreateVehicleCallBack) :
    (mapFind k f._vehicleCallBackMap ≠ none → f.RegisterVehicle k c = f) ∧
      (f.RegisterVehicle k c).RegisterVehicle k c = f.RegisterVehicle k c := by
  constructor
  · intro h
    cases hk : mapFind k f._vehicleCallBackMap with
    | none => exact absurd hk h
    | some c0 => simp [VehicleFactory.RegisterVehicle, hk]
  · cases hk : mapFind k f._vehicleCallBackMap with
    | none => simp [VehicleFactory.RegisterVehicle, hk, mapFind_mapInsert_self]
    | some c0 => simp [VehicleFactory.RegisterVehicle, hk]

theorem RegisterVehicle_existing_noop_witness :
    mapFind 2 mainFactory._vehicleCallBackMap ≠ none ∧
      mainFactory.RegisterVehicle 2 FourWheeler.create = mainFactory :=
  ⟨by simp [mainFactory, VehicleFactory.RegisterVehicle, VehicleFactory.new, mapFind, mapInsert,
      VehicleType.twoWheeler, VehicleType.threeWheeler, VehicleType.fourWheeler],
    (RegisterVehicle_existing_noop mainFactory 2 FourWheeler.create).1
      (by simp [mainFactory, VehicleFactory.RegisterVehicle, VehicleFactory.new, mapFind,
        mapInsert, VehicleType.twoWheeler, VehicleType.threeWheeler,
        VehicleType.fourWheeler])⟩

/-- C5: for every factory and every key `k`, registered or not, after `UnregisterVehicle(k)`
the key has no mapping and `CreateVehicle(k)` returns null, reporting the unknown type. -/
theorem UnregisterVehicle_then_create (f : VehicleFactory) (k : VehicleType) (m : Machine) :
    mapFind k (f.UnregisterVehicle k)._vehicleCallBackMap = none ∧
      (f.UnregisterVehicle k).CreateVehicle k m = (none, reportUnknown m) := by
  have h : mapFind k (f.UnregisterVehicle k)._vehicleCallBackMap = none := by
    simp [VehicleFactory.UnregisterVehicle, mapFind_mapErase_self]
  exact ⟨h, by simp [VehicleFactory.CreateVehicle, h]⟩

/-- C6: if `k` has no mapping, `UnregisterVehicle(k)` returns the factory with an identical
map, and as a step of a call sequence it changes neither the factory nor the machine (no
diagnostic is written, no callback runs). -/
theorem UnregisterVehicle_absent_noop (f : VehicleFactory) (k : VehicleType) (m : Machine)
    (h : mapFind k f._vehicleCallBackMap = none) :
    f.UnregisterVehicle k = f ∧ step (f, m) (.unregister k) = (f, m) := by
  have e : f.UnregisterVehicle k = f := by
    cases f with
    | mk l => simp [VehicleFactory.UnregisterVehicle, mapErase_of_absent k l h]
  exact ⟨e, by simp [step, e]⟩

theorem UnregisterVehicle_absent_noop_witness :
    mapFind 9 mainFactory._vehicleCallBackMap = none ∧
      mainFactory.UnregisterVehicle 9 = mainFactory ∧
      step (mainFactory, Machine.start) (.unregister 9) = (mainFactory, Machine.start) :=
  ⟨rfl, UnregisterVehicle_absent_noop mainFactory 9 Machine.start rfl⟩

/-! ## Invariant, singleton, freshness, output -/

/-- C7: in every factory state reached from the empty factory by a finite sequence of
`RegisterVehicle`, `UnregisterVehicle` and `CreateVehicle` calls, no key occurs twice in the
map and a key is mapped to at most one creator. -/
theorem reachable_one_creator_per_key (ops : List Op) (m : Machine) :
    (mapKeys (run ops (VehicleFactory.new, m)).1._vehicleCallBackMap).Nodup ∧
      ∀ (k : VehicleType) (c1 c2 : CreateVehicleCallBack),
        (k, c1) ∈ (run ops (VehicleFactory.new, m)).1._vehicleCallBackMap →
        (k, c2) ∈ (run ops (VehicleFactory.new, m)).1._vehicleCallBackMap → c1 = c2 := by
  have hs : (mapKeys (run ops (VehicleFactory.new, m)).1._vehicleCallBackMap).Pairwise
      (· < ·) :=
    run_sorted ops (VehicleFactory.new, m) (by simp [VehicleFactory.new, mapKeys])
  exact ⟨List.Pairwise.imp (fun h => ne_of_lt h) hs,
    fun k c1 c2 h1 h2 => sorted_functional _ hs k c1 c2 h1 h2⟩

theorem reachable_one_creator_per_key_witness :
    (3, ThreeWheeler.create) ∈ (run [.register 3 ThreeWheeler.create,
        .register 3 TwoWheeler.create, .create 3, .unregister 2]
        (VehicleFactory.new, Machine.start)).1._vehicleCallBackMap ∧
      ∀ c2 : CreateVehicleCallBack,
        (3, c2) ∈ (run [.register 3 ThreeWheeler.create, .register 3 TwoWheeler.create,
          .create 3, .unregister 2]
          (VehicleFactory.new, Machine.start)).1._vehicleCallBackMap →
        ThreeWheeler.create = c2 :=
  ⟨List.mem_singleton.2 rfl, fun c2 h =>
    (reachable_one_creator_per_key [.register 3 ThreeWheeler.create,
      .register 3 TwoWheeler.create, .create 3, .unregister 2] Machine.start).2 3
      ThreeWheeler.create c2 (List.mem_singleton.2 rfl) h⟩

/-- C8: with `_instance` as explicit state: a call of `instance()` in a state where it is null
constructs exactly one empty factory, stores its address in `_instance` and returns it; a
call in a state where it is set returns the stored address and changes nothing; hence after
any call every later call returns the same address and leaves the state (so the map) as it
is; and a registration of an absent key made through `instance()` is what `CreateVehicle`
through `instance()` finds after any number of further `instance()` calls. -/
theorem instance_singleton (p : Process) (a : Nat) (n : Nat) (k : VehicleType)
    (c : CreateVehicleCallBack) (m : Machine) :
    (p._instance = none →
      VehicleFactory.instance p =
        (p.factories.length, ⟨some p.factories.length, p.factories ++ [⟨[]⟩]⟩)) ∧
    (p._instance = some a → VehicleFactory.instance p = (a, p)) ∧
    (VehicleFactory.instance (instanceCalls n (VehicleFactory.instance p).2)
      = ((VehicleFactory.instance p).1, (VehicleFactory.instance p).2)) ∧
    (∀ f0 : VehicleFactory,
      (VehicleFactory.instance p).2.factories[(VehicleFactory.instance p).1]? = some f0 →
      mapFind k f0._vehicleCallBackMap = none →
      ∃ p1, instanceRegisterVehicle k c p = some p1 ∧
        instanceCreateVehicle k (instanceCalls n p1) m
          = some ((c m.world).1, p1, ⟨(c m.world).2, m.calls ++ [c]⟩)) := by
  refine ⟨?_, instance_of_some p a, ?_, ?_⟩
  · intro h
    simp [VehicleFactory.instance, h, VehicleFactory.new]
  · rw [instanceCalls_of_some n _ _ (instance_snd_instance p)]
    exact instance_of_some _ _ (instance_snd_instance p)
  · intro f0 hf0 hk
    have hlt : (VehicleFactory.instance p).1 < (VehicleFactory.instance p).2.factories.length :=
      (List.getElem?_eq_some_iff.1 hf0).1
    refine ⟨{ (VehicleFactory.instance p).2 with
        factories := (VehicleFactory.instance p).2.factories.set (VehicleFactory.instance p).1
          (f0.RegisterVehicle k c) }, by simp only [instanceRegisterVehicle, hf0], ?_⟩
    have hi : ({ (VehicleFactory.instance p).2 with
        factories := (VehicleFactory.instance p).2.factories.set (VehicleFactory.instance p).1
          (f0.RegisterVehicle k c) } : Process)._instance = some (VehicleFactory.instance p).1 :=
      instance_snd_instance p
    rw [instanceCalls_of_some n _ _ hi]
    have hfind : mapFind k (f0.RegisterVehicle k c)._vehicleCallBackMap = some c := by
      simp [VehicleFactory.RegisterVehicle, hk, mapFind_mapInsert_self]
    simp only [instanceCreateVehicle, instance_of_some _ _ hi]
    rw [List.getElem?_set_self hlt]
    simp [VehicleFactory.CreateVehicle, hfind, invoke]

theorem instance_singleton_witness :
    Process.start._instance = none ∧
      VehicleFactory.instance Process.start = (0, ⟨some 0, [⟨[]⟩]⟩) ∧
      (∃ p1, instanceRegisterVehicle 2 TwoWheeler.create Process.start = some p1 ∧
        instanceCreateVehicle 2 (instanceCalls 3 p1) Machine.start
          = some ((TwoWheeler.create Machine.start.world).1, p1,
              ⟨(TwoWheeler.create Machine.start.world).2,
                Machine.start.calls ++ [TwoWheeler.create]⟩)) :=
  ⟨rfl, (instance_singleton Process.start 0 3 2 TwoWheeler.create Machine.start).1 rfl,
    (instance_singleton Process.start 0 3 2 TwoWheeler.create Machine.start).2.2.2
      ⟨[]⟩ rfl rfl⟩

/-- C9 (refuted as stated): a callback that hands out the address of one static object is of
the callback type; registered under key 2, two consecutive `CreateVehicle(2)` calls both
return the address `1`. -/
theorem CreateVehicle_repeated_same_reference :
    mapFind 2 (VehicleFactory.new.RegisterVehicle 2 staticVehicleCreate)._vehicleCallBackMap
        = some staticVehicleCreate ∧
      ((VehicleFactory.new.RegisterVehicle 2 staticVehicleCreate).CreateVehicle 2
        ⟨staticVehicleWorld, []⟩).1 = some 1 ∧
      ((VehicleFactory.new.RegisterVehicle 2 staticVehicleCreate).CreateVehicle 2
        ((VehicleFactory.new.RegisterVehicle 2 staticVehicleCreate).CreateVehicle 2
          ⟨staticVehicleWorld, []⟩).2).1 = some 1 :=
  ⟨rfl, rfl, rfl⟩

/-- C9 (amended): each of the three shipped creators returns a newly allocated object on
every call. For every program text, every key `k` and every creator `c` that does so:
whenever `CreateVehicle(k)` is called in a state where `k` is mapped to `c`, it returns a
non-null address that no live object occupies, so it differs from the address returned by any
other such call whose object is still alive; in particular two consecutive calls differ when
`k` is still mapped to `c` after the first. -/
theorem CreateVehicle_repeated_distinct :
    (AllocatesFresh (Reentrant.lift TwoWheeler.create) ∧
      AllocatesFresh (Reentrant.lift ThreeWheeler.create) ∧
      AllocatesFresh (Reentrant.lift FourWheeler.create)) ∧
    (∀ (code : Reentrant.Code) (k : VehicleType) (fp : FnPtr) (s1 s2 : Reentrant.State),
      AllocatesFresh (code fp) →
      mapFind k s1._vehicleCallBackMap = some fp →
      mapFind k s2._vehicleCallBackMap = some fp →
      ∃ a1 a2 : Nat, (Reentrant.CreateVehicle code k s1).1 = some a1 ∧
        (Reentrant.CreateVehicle code k s2).1 = some a2 ∧
        a2 ∉ liveAddrs s2.world ∧ (a1 ∈ liveAddrs s2.world → a1 ≠ a2)) ∧
    (∀ (code : Reentrant.Code) (k : VehicleType) (fp : FnPtr) (s : Reentrant.State),
      AllocatesFresh (code fp) →
      mapFind k s._vehicleCallBackMap = some fp →
      mapFind k (Reentrant.CreateVehicle code k s).2._vehicleCallBackMap = some fp →
      ∃ a1 a2 : Nat, (Reentrant.CreateVehicle code k s).1 = some a1 ∧
        (Reentrant.CreateVehicle code k (Reentrant.CreateVehicle code k s).2).1 = some a2 ∧
        a1 ≠ a2) := by
  refine ⟨⟨allocatesFresh_new .TwoWheeler, allocatesFresh_new .ThreeWheeler,
    allocatesFresh_new .FourWheeler⟩, ?_, ?_⟩
  · intro code k fp s1 s2 hc h1 h2
    obtain ⟨a1, e1, _, _⟩ := hc s1
    obtain ⟨a2, e2, n2, _⟩ := hc s2
    refine ⟨a1, a2, ?_, ?_, n2, fun hl e => n2 (e ▸ hl)⟩
    · simp [Reentrant.CreateVehicle, h1, e1]
    · simp [Reentrant.CreateVehicle, h2, e2]
  · intro code k fp s hc h1 h2
    have hs : Reentrant.CreateVehicle code k s = code fp s := by
      simp [Reentrant.CreateVehicle, h1]
    rw [hs] at h2 ⊢
    obtain ⟨a1, e1, _, l1⟩ := hc s
    obtain ⟨a2, e2, n2, _⟩ := hc (code fp s).2
    refine ⟨a1, a2, e1, ?_, fun e => n2 (e ▸ l1)⟩
    simp [Reentrant.CreateVehicle, h2, e2]

theorem CreateVehicle_repeated_distinct_witness :
    AllocatesFresh (exampleCode 2) ∧
      mapFind 4 Reentrant.mainState._vehicleCallBackMap = some 2 ∧
      mapFind 4 (Reentrant.CreateVehicle exampleCode 4
        Reentrant.mainState).2._vehicleCallBackMap = some 2 ∧
      ∃ a1 a2 : Nat, (Reentrant.CreateVehicle exampleCode 4 Reentrant.mainState).1 = some a1 ∧
        (Reentrant.CreateVehicle exampleCode 4
          (Reentrant.CreateVehicle exampleCode 4 Reentrant.mainState).2).1 = some a2 ∧
        a1 ≠ a2 :=
  ⟨CreateVehicle_repeated_distinct.1.2.2, rfl, rfl,
    CreateVehicle_repeated_distinct.2.2 exampleCode 4 2 Reentrant.mainState
      CreateVehicle_repeated_distinct.1.2.2 rfl rfl⟩

/-- C10 (refuted as stated): from a program start with nothing printed, `CreateVehicle` of an
unregistered key leaves a line on `cerr`, and `CreateVehicle(twoWheeler)` on the factory of
`main` leaves the constructor line on `cout`. -/
theorem CreateVehicle_writes_output :
    Machine.start.world.cerr = "" ∧ Machine.start.world.cout = "" ∧
      mapFind 7 mainFactory._vehicleCallBackMap = none ∧
      (mainFactory.CreateVehicle 7 Machine.start).2.world.cerr = "Unknown vechicle type\n" ∧
      mapFind 2 mainFactory._vehicleCallBackMap = some TwoWheeler.create ∧
      (mainFactory.CreateVehicle 2 Machine.start).2.world.cout = "Two wheeler ctor\n" :=
  ⟨rfl, rfl, rfl, rfl, rfl, rfl⟩

/-- C10 (amended): `CreateVehicle(k)` writes one line and no more: for an unregistered `k`
it appends the diagnostic line to `cerr` and leaves `cout` as it is; for `k` registered with a
shipped creator it appends that class's constructor line to `cout` and leaves `cerr` as it
is. -/
theorem CreateVehicle_output (f : VehicleFactory) (k : VehicleType) (m : Machine) :
    (mapFind k f._vehicleCallBackMap = none →
      (f.CreateVehicle k m).2.world.cerr = m.world.cerr ++ "Unknown vechicle type\n" ∧
      (f.CreateVehicle k m).2.world.cout = m.world.cout) ∧
    (mapFind k f._vehicleCallBackMap = some TwoWheeler.create →
      (f.CreateVehicle k m).2.world.cout = m.world.cout ++ "Two wheeler ctor\n" ∧
      (f.CreateVehicle k m).2.world.cerr = m.world.cerr) ∧
    (mapFind k f._vehicleCallBackMap = some ThreeWheeler.create →
      (f.CreateVehicle k m).2.world.cout = m.world.cout ++ "Three wheeler ctor\n" ∧
      (f.CreateVehicle k m).2.world.cerr = m.world.cerr) ∧
    (mapFind k f._vehicleCallBackMap = some FourWheeler.create →
      (f.CreateVehicle k m).2.world.cout = m.world.cout ++ "Four wheeler ctor\n" ∧
      (f.CreateVehicle k m).2.world.cerr = m.world.cerr) := by
  refine ⟨?_, ?_, ?_, ?_⟩ <;> intro h
  · simp [VehicleFactory.CreateVehicle, h, reportUnknown]
  · simp [VehicleFactory.CreateVehicle, h, invoke, TwoWheeler.create, newVehicle, allocate,
      VehicleClass.ctorText]
  · simp [VehicleFactory.CreateVehicle, h, invoke, ThreeWheeler.create, newVehicle, allocate,
      VehicleClass.ctorText]
  · simp [VehicleFactory.CreateVehicle, h, invoke, FourWheeler.create, newVehicle, allocate,
      VehicleClass.ctorText]

theorem CreateVehicle_output_witness :
    mapFind 3 mainFactory._vehicleCallBackMap = some ThreeWheeler.create ∧
      (mainFactory.CreateVehicle 3 Machine.start).2.world.cout
        = Machine.start.world.cout ++ "Three wheeler ctor\n" ∧
      (mainFactory.CreateVehicle 3 Machine.start).2.world.cerr = Machine.start.world.cerr :=
  ⟨rfl, (CreateVehicle_output mainFactory 3 Machine.start).2.2.1 rfl⟩

/-! ## Further lemmas on the map -/

theorem RegisterVehicle_find_of_absent (g : VehicleFactory) (k : VehicleType)
    (c : CreateVehicleCallBack) (h : mapFind k g._vehicleCallBackMap = none) :
    mapFind k (g.RegisterVehicle k c)._vehicleCallBackMap = some c := by
  simp [VehicleFactory.RegisterVehicle, h, mapFind_mapInsert_self]

theorem mapFind_after_reregister (f : VehicleFactory) (k : VehicleType)
    (c1 c2 : CreateVehicleCallBack) :
    mapFind k (((f.RegisterVehicle k c1).UnregisterVehicle k).RegisterVehicle k
      c2)._vehicleCallBackMap = some c2 :=
  RegisterVehicle_find_of_absent _ k c2
    (by simp [VehicleFactory.UnregisterVehicle, mapFind_mapErase_self])

theorem mainFactory_find_other (k : VehicleType) (h2 : k ≠ 2) (h3 : k ≠ 3) (h4 : k ≠ 4) :
    mapFind k mainFactory._vehicleCallBackMap = none := by
  simp [mainFactory, VehicleFactory.RegisterVehicle, VehicleFactory.new, mapFind, mapInsert,
    VehicleType.twoWheeler, VehicleType.threeWheeler, VehicleType.fourWheeler, h2, h3, h4]

theorem Client_on_mainProcess (t : VehicleType) (m : Machine) :
    Client.Client t mainProcess m
      = some (⟨(mainFactory.CreateVehicle t m).1⟩, mainProcess,
          (mainFactory.CreateVehicle t m).2) := rfl

/-! ## Independence, re-registration, frame -/

/-- C11 (refuted as stated): with key 2 mapped to a creator that unregisters key 2 and returns
a new `TwoWheeler`, `CreateVehicle(2)` returns an object and leaves the map empty, and the
next `CreateVehicle(2)` returns null. -/
theorem CreateVehicle_changes_mapping :
    mapFind 2 (Reentrant.RegisterVehicle 2 3 ⟨World.start, []⟩)._vehicleCallBackMap = some 3 ∧
      (Reentrant.CreateVehicle exampleCode 2
        (Reentrant.RegisterVehicle 2 3 ⟨World.start, []⟩)).1 = some 1 ∧
      (Reentrant.CreateVehicle exampleCode 2
        (Reentrant.RegisterVehicle 2 3 ⟨World.start, []⟩)).2._vehicleCallBackMap = [] ∧
      (Reentrant.CreateVehicle exampleCode 2
        (Reentrant.CreateVehicle exampleCode 2
          (Reentrant.RegisterVehicle 2 3 ⟨World.start, []⟩)).2).1 = none :=
  ⟨rfl, rfl, rfl, rfl⟩

/-- C11 (amended): on equal maps any two runs of `CreateVehicle(k)` have the same outcome:
both return null and report the unknown type, or both are the invocation of the same stored
creator. The map after the call is the map before it when `k` is unmapped, and when the
stored creator leaves the map as it found it; in that case a second, consecutive call is
again the invocation of the same creator. Every creator that acts on the world only, so each
of the three shipped ones, leaves the map as it found it. -/
theorem CreateVehicle_independent (code : Reentrant.Code) (k : VehicleType)
    (s s2 : Reentrant.State) :
    (s2._vehicleCallBackMap = s._vehicleCallBackMap →
      (mapFind k s._vehicleCallBackMap = none ∧
          Reentrant.CreateVehicle code k s = (none, Reentrant.reportUnknown s) ∧
          Reentrant.CreateVehicle code k s2 = (none, Reentrant.reportUnknown s2)) ∨
        ∃ fp, mapFind k s._vehicleCallBackMap = some fp ∧
          Reentrant.CreateVehicle code k s = code fp s ∧
          Reentrant.CreateVehicle code k s2 = code fp s2) ∧
    (mapFind k s._vehicleCallBackMap = none →
      (Reentrant.CreateVehicle code k s).2._vehicleCallBackMap = s._vehicleCallBackMap) ∧
    (∀ fp, mapFind k s._vehicleCallBackMap = some fp → KeepsRegistry (code fp) →
      (Reentrant.CreateVehicle code k s).2._vehicleCallBackMap = s._vehicleCallBackMap ∧
      Reentrant.CreateVehicle code k (Reentrant.CreateVehicle code k s).2
        = code fp (Reentrant.CreateVehicle code k s).2) ∧
    (∀ c : CreateVehicleCallBack, KeepsRegistry (Reentrant.lift c)) := by
  refine ⟨?_, ?_, ?_, keepsRegistry_lift⟩
  · intro he
    cases h : mapFind k s._vehicleCallBackMap with
    | none =>
      exact Or.inl ⟨rfl, by simp [Reentrant.CreateVehicle, h],
        by simp [Reentrant.CreateVehicle, he, h]⟩
    | some fp =>
      exact Or.inr ⟨fp, rfl, by simp [Reentrant.CreateVehicle, h],
        by simp [Reentrant.CreateVehicle, he, h]⟩
  · intro h
    simp [Reentrant.CreateVehicle, h, Reentrant.reportUnknown]
  · intro fp h hk
    have hs : Reentrant.CreateVehicle code k s = code fp s := by
      simp [Reentrant.CreateVehicle, h]
    have hm : (code fp s).2._vehicleCallBackMap = s._vehicleCallBackMap := hk s
    rw [hs]
    refine ⟨hm, ?_⟩
    simp [Reentrant.CreateVehicle, hm, h]

theorem CreateVehicle_independent_witness :
    mapFind 3 Reentrant.mainState._vehicleCallBackMap = some 1 ∧
      KeepsRegistry (exampleCode 1) ∧
      (Reentrant.CreateVehicle exampleCode 3 Reentrant.mainState).2._vehicleCallBackMap
        = Reentrant.mainState._vehicleCallBackMap ∧
      Reentrant.CreateVehicle exampleCode 3
          (Reentrant.CreateVehicle exampleCode 3 Reentrant.mainState).2
        = exampleCode 1 (Reentrant.CreateVehicle exampleCode 3 Reentrant.mainState).2 :=
  ⟨rfl, keepsRegistry_lift ThreeWheeler.create,
    (CreateVehicle_independent exampleCode 3 Reentrant.mainState Reentrant.mainState).2.2.1 1
      rfl (keepsRegistry_lift ThreeWheeler.create)⟩

/-- C12: for every factory state, every key `k` (any value of the key type) and all creators
`c1`, `c2`: after `RegisterVehicle(k, c1)`, `UnregisterVehicle(k)`, `RegisterVehicle(k, c2)`
the creator stored under `k` is `c2`, and `CreateVehicle(k)` is one invocation of `c2`. -/
theorem reregister_after_unregister (f : VehicleFactory) (k : VehicleType)
    (c1 c2 : CreateVehicleCallBack) (m : Machine) :
    mapFind k (((f.RegisterVehicle k c1).UnregisterVehicle k).RegisterVehicle k
      c2)._vehicleCallBackMap = some c2 ∧
    (((f.RegisterVehicle k c1).UnregisterVehicle k).RegisterVehicle k c2).CreateVehicle k m
      = ((c2 m.world).1, ⟨(c2 m.world).2, m.calls ++ [c2]⟩) := by
  have h := mapFind_after_reregister f k c1 c2
  exact ⟨h, by simp [VehicleFactory.CreateVehicle, h, invoke]⟩

theorem freshAddr_cons_ne (a : Nat) (cls : VehicleClass) (h : List (Nat × VehicleClass)) :
    freshAddr ((a, cls) :: h) ≠ a := by
  intro e
  have hn := freshAddr_not_live ⟨(a, cls) :: h, "", ""⟩
  simp only [liveAddrs, List.map_cons, List.mem_cons, not_or] at hn
  exact hn.1 e

theorem lookup_older (a : Nat) (c0 cls : VehicleClass) (h : List (Nat × VehicleClass)) :
    List.lookup a ((freshAddr ((a, c0) :: h), cls) :: (a, c0) :: h) = some c0 := by
  have hne : (a == freshAddr ((a, c0) :: h)) = false := by
    simpa using fun e : a = freshAddr ((a, c0) :: h) => freshAddr_cons_ne a c0 h e.symm
  simp [List.lookup, hne]

theorem mainRegistrations_start : mainRegistrations Process.start = some mainProcess := rfl

/-- C13: starting from the empty registry, the three registrations of `main` lead to the
factory `mainFactory`; on it `CreateVehicle(twoWheeler)` and then `CreateVehicle(threeWheeler)`
return two non-null, distinct addresses; `printVehicle` on the first writes
"Iam a two wheeler" and on the second "Iam a three wheeler"; and `CreateVehicle` of a key
other than the three registered ones returns null and reports the unknown type. -/
theorem main_scenario (m : Machine) (k : VehicleType) :
    mainRegistrations Process.start = some mainProcess ∧
    (∃ a1 a2 : Nat,
      (mainFactory.CreateVehicle VehicleType.twoWheeler m).1 = some a1 ∧
      (mainFactory.CreateVehicle VehicleType.threeWheeler
        (mainFactory.CreateVehicle VehicleType.twoWheeler m).2).1 = some a2 ∧
      a1 ≠ a2 ∧
      (∀ w : World, w.heap = (mainFactory.CreateVehicle VehicleType.twoWheeler m).2.world.heap →
        printVehicle a1 w = { w with cout := w.cout ++ "Iam a two wheeler\n" }) ∧
      (∀ w : World, w.heap = (mainFactory.CreateVehicle VehicleType.threeWheeler
          (mainFactory.CreateVehicle VehicleType.twoWheeler m).2).2.world.heap →
        printVehicle a1 w = { w with cout := w.cout ++ "Iam a two wheeler\n" } ∧
        printVehicle a2 w = { w with cout := w.cout ++ "Iam a three wheeler\n" })) ∧
    (k ≠ VehicleType.twoWheeler → k ≠ VehicleType.threeWheeler →
      k ≠ VehicleType.fourWheeler → mainFactory.CreateVehicle k m = (none, reportUnknown m)) := by
  refine ⟨rfl, ⟨freshAddr m.world.heap,
    freshAddr ((freshAddr m.world.heap, .TwoWheeler) :: m.world.heap), rfl, rfl, ?_, ?_, ?_⟩, ?_⟩
  · exact fun e => freshAddr_cons_ne _ _ _ e.symm
  · intro w hw
    have hh : w.heap = (freshAddr m.world.heap, .TwoWheeler) :: m.world.heap := hw
    simp [printVehicle, hh, List.lookup, VehicleClass.printText]
  · intro w hw
    have hh : w.heap = (freshAddr ((freshAddr m.world.heap, .TwoWheeler) :: m.world.heap),
        .ThreeWheeler) :: (freshAddr m.world.heap, .TwoWheeler) :: m.world.heap := hw
    constructor
    · simp only [printVehicle, hh, lookup_older]
      rfl
    · simp [printVehicle, hh, List.lookup, VehicleClass.printText]
  · intro h2 h3 h4
    have hf := mainFactory_find_other k h2 h3 h4
    simp [VehicleFactory.CreateVehicle, hf]

theorem main_scenario_witness :
    (7 : VehicleType) ≠ VehicleType.twoWheeler ∧ (7 : VehicleType) ≠ VehicleType.threeWheeler ∧
      (7 : VehicleType) ≠ VehicleType.fourWheeler ∧
      mainFactory.CreateVehicle 7 Machine.start = (none, reportUnknown Machine.start) ∧
      (mainFactory.CreateVehicle VehicleType.twoWheeler Machine.start).1 = some 1 ∧
      (mainFactory.CreateVehicle VehicleType.threeWheeler
        (mainFactory.CreateVehicle VehicleType.twoWheeler Machine.start).2).1 = some 2 :=
  ⟨by decide, by decide, by decide,
    (main_scenario Machine.start 7).2.2 (by decide) (by decide) (by decide), rfl, rfl⟩

theorem mainFactory_create_two (m : Machine) :
    mainFactory.CreateVehicle 2 m = invoke TwoWheeler.create m := rfl

theorem mainFactory_create_three (m : Machine) :
    mainFactory.CreateVehicle 3 m = invoke ThreeWheeler.create m := rfl

theorem mainFactory_create_four (m : Machine) :
    mainFactory.CreateVehicle 4 m = invoke FourWheeler.create m := rfl

theorem lookup_newest (a : Nat) (cls : VehicleClass) (h : List (Nat × VehicleClass)) :
    List.lookup a ((a, cls) :: h) = some cls := by
  simp [List.lookup]

/-- C16: after the three registrations of `main` on an empty registry, for every value `t` of
the key type `Client(t)` holds the result of `CreateVehicle(t)` on that registry; it holds
null exactly when `Before::Client(t)` holds null; otherwise the two held objects are live and
their classes print the same `printVehicle` text and the same constructor text; and both
constructors leave the same text on `cout`. -/
theorem Client_agrees_with_Before (t : VehicleType) (m : Machine) :
    mainRegistrations Process.start = some mainProcess ∧
    Client.Client t mainProcess m
      = some (⟨(mainFactory.CreateVehicle t m).1⟩, mainProcess,
          (mainFactory.CreateVehicle t m).2) ∧
    ((mainFactory.CreateVehicle t m).1 = none ↔ (Before.Client.Client t m).1.m_vehicle = none) ∧
    ((mainFactory.CreateVehicle t m).1 ≠ none →
      ∃ cls cls0 : VehicleClass,
        classOf (mainFactory.CreateVehicle t m).1 (mainFactory.CreateVehicle t m).2.world
          = some cls ∧
        classOf (Before.Client.Client t m).1.m_vehicle (Before.Client.Client t m).2.world
          = some cls0 ∧
        cls.printText = cls0.printText ∧ cls.ctorText = cls0.ctorText) ∧
    (mainFactory.CreateVehicle t m).2.world.cout = (Before.Client.Client t m).2.world.cout := by
  refine ⟨rfl, rfl, ?_⟩
  by_cases h2 : t = 2
  · subst h2
    exact ⟨Iff.rfl, fun _ => ⟨.TwoWheeler, .BeforeTwoWheeler, lookup_newest _ _ _,
      lookup_newest _ _ _, rfl, rfl⟩, rfl⟩
  · by_cases h3 : t = 3
    · subst h3
      exact ⟨Iff.rfl, fun _ => ⟨.ThreeWheeler, .BeforeThreeWheeler, lookup_newest _ _ _,
        lookup_newest _ _ _, rfl, rfl⟩, rfl⟩
    · by_cases h4 : t = 4
      · subst h4
        exact ⟨Iff.rfl, fun _ => ⟨.FourWheeler, .BeforeFourWheeler, lookup_newest _ _ _,
          lookup_newest _ _ _, rfl, rfl⟩, rfl⟩
      · have hc : mainFactory.CreateVehicle t m = (none, reportUnknown m) := by
          simp [VehicleFactory.CreateVehicle, mainFactory_find_other t h2 h3 h4]
        have hb : Before.Client.Client t m = (⟨none⟩,
            { m with world :=
              { m.world with cerr := m.world.cerr ++ "Unknown vehicle type\n" } }) := by
          simp [Before.Client.Client, VehicleType.twoWheeler, VehicleType.threeWheeler,
            VehicleType.fourWheeler, h2, h3, h4]
        rw [hc, hb]
        exact ⟨Iff.rfl, fun h => absurd rfl h, rfl⟩

theorem Client_agrees_with_Before_witness :
    (mainFactory.CreateVehicle 3 Machine.start).1 ≠ none ∧
      ∃ cls cls0 : VehicleClass,
        classOf (mainFactory.CreateVehicle 3 Machine.start).1
          (mainFactory.CreateVehicle 3 Machine.start).2.world = some cls ∧
        classOf (Before.Client.Client 3 Machine.start).1.m_vehicle
          (Before.Client.Client 3 Machine.start).2.world = some cls0 ∧
        cls.printText = cls0.printText ∧ cls.ctorText = cls0.ctorText :=
  ⟨Option.some_ne_none 1,
    (Client_agrees_with_Before 3 Machine.start).2.2.2.1 (Option.some_ne_none 1)⟩

/-! ## The journal: text written by `save` -/

theorem Journal_build_entries (entries : List String) (j : SRP.Journal) :
    (entries.foldl SRP.Journal.add_entries j).m_entries = j.m_entries ++ entries := by
  induction entries generalizing j with
  | nil => simp
  | cons e t ih => simp [ih, SRP.Journal.add_entries]

theorem SRPJournal_build_entries (entries : List String) (j : SRP.SRPJournal) :
    (entries.foldl SRP.SRPJournal.add_entries j).m_entries = j.m_entries ++ entries := by
  induction entries generalizing j with
  | nil => simp
  | cons e t ih => simp [ih, SRP.SRPJournal.add_entries]

theorem writeLoop_data (entries : List String) (acc : String) :
    (entries.foldl (fun fs s => fs ++ s ++ "\n") acc).data
      = acc.data ++ (entries.map fun e => e.data ++ [Char.ofNat 10]).flatten := by
  induction entries generalizing acc with
  | nil => simp
  | cons e t ih =>
    simp only [List.foldl_cons, ih, String.data_append, List.map_cons, List.flatten_cons,
      List.append_assoc]

/-- Appending each entry and a newline to the empty text gives the concatenation of the
entries, each followed by one newline. -/
theorem appendLoop_eq_join (entries : List String) :
    entries.foldl (fun fs s => fs ++ s ++ "\n") ""
      = String.join (entries.map fun e => e ++ "\n") := by
  apply String.ext
  rw [writeLoop_data, String.data_join, List.map_map]
  show [] ++ _ = _
  rw [List.nil_append]
  congr 1

/-- On an open stream the loop appends every entry and its newline. -/
theorem writeEntries_open (entries : List String) (t : String) :
    writeEntries entries ⟨true, t⟩
      = ⟨true, entries.foldl (fun fs s => fs ++ s ++ "\n") t⟩ := by
  induction entries generalizing t with
  | nil => rfl
  | cons e r ih =>
    have h := ih (t ++ e ++ "\n")
    simp only [writeEntries, List.foldl_cons, FStream.put, if_true] at h ⊢
    exact h

/-- On a stream that failed to open the loop writes nothing. -/
theorem writeEntries_closed (entries : List String) (t : String) :
    writeEntries entries ⟨false, t⟩ = ⟨false, t⟩ := by
  induction entries with
  | nil => rfl
  | cons e r ih =>
    simp only [writeEntries, List.foldl_cons, FStream.put] at ih ⊢
    exact ih

theorem count_newline_lines (entries : List String) :
    ((entries.map fun e => e.data ++ [Char.ofNat 10]).flatten).count (Char.ofNat 10)
      = entries.length + innerNewlines entries := by
  induction entries with
  | nil => simp [innerNewlines]
  | cons e t ih =>
    simp only [List.map_cons, List.flatten_cons, List.count_append, ih, innerNewlines,
      List.sum_cons, List.length_cons, List.count_singleton_self]
    omega

theorem innerNewlines_eq_zero (entries : List String)
    (h : ∀ e ∈ entries, Char.ofNat 10 ∉ e.data) : innerNewlines entries = 0 := by
  induction entries with
  | nil => rfl
  | cons e t ih =>
    have he : e.data.count (Char.ofNat 10) = 0 :=
      List.count_eq_zero.2 (h e (List.mem_cons_self e t))
    have ht := ih (fun x hx => h x (List.mem_cons_of_mem e hx))
    simp only [innerNewlines, List.map_cons, List.sum_cons] at ht ⊢
    omega

/-- Effect of the body shared by both `save` functions. -/
theorem save_body (entries : List String) (filename : String) (files : FileSystem) :
    (files.canOpen filename = true →
      ((writeEntries entries (FStream.openOut files filename)).close filename files).content
        filename = some (String.join (entries.map fun e => e ++ "\n"))) ∧
    (files.canOpen filename = false →
      (writeEntries entries (FStream.openOut files filename)).close filename files = files) := by
  constructor
  · intro h
    simp [FStream.openOut, h, writeEntries_open, FStream.close, appendLoop_eq_join]
  · intro h
    simp [FStream.openOut, h, writeEntries_closed, FStream.close]

/-- C14 (refuted as stated): on a file system where "diary.txt" can be opened, a journal with
the single entry "a", newline, "b" is saved as a text of two lines, although the journal has
one entry; and saving a one-entry journal under the empty name, which cannot be opened,
writes no text at all. -/
theorem save_lines_exceed_entries :
    (SRP.SavingManager.save (SRP.SRPJournal.build ["a\nb"]) "diary.txt"
        FileSystem.blank).content "diary.txt" = some "a\nb\n" ∧
      (SRP.Journal.save (SRP.Journal.build ["a\nb"]) "diary.txt"
        FileSystem.blank).content "diary.txt" = some "a\nb\n" ∧
      lineCount "a\nb\n" = 2 ∧
      (SRP.SRPJournal.build ["a\nb"]).get_entries.length = 1 ∧
      (SRP.SavingManager.save (SRP.SRPJournal.build ["Dear XYZ"]) ""
        FileSystem.blank).content "" = none ∧
      (SRP.Journal.save (SRP.Journal.build ["Dear XYZ"]) "" FileSystem.blank).content ""
        = none := by
  refine ⟨?_, ?_, by decide, rfl, ?_, ?_⟩
  · simp [SRP.SavingManager.save, SRP.SRPJournal.build, SRP.SRPJournal.add_entries,
      SRP.SRPJournal.get_entries, writeEntries, FStream.openOut, FStream.put, FStream.close,
      FileSystem.blank]
  · simp [SRP.Journal.save, SRP.Journal.build, SRP.Journal.add_entries, writeEntries,
      FStream.openOut, FStream.put, FStream.close, FileSystem.blank]
  · simp [SRP.SavingManager.save, SRP.SRPJournal.build, SRP.SRPJournal.add_entries,
      SRP.SRPJournal.get_entries, writeEntries, FStream.openOut, FStream.put, FStream.close,
      FileSystem.blank]
  · simp [SRP.Journal.save, SRP.Journal.build, SRP.Journal.add_entries, writeEntries,
      FStream.openOut, FStream.put, FStream.close, FileSystem.blank]

/-- C14 (amended): for every journal built by a sequence of `add_entries` calls and every
file name: if the file can be opened for writing, the text that `SavingManager::save`, and
identically `Journal::save`, leaves in it is the concatenation, in insertion order, of each
entry followed by one newline; if it cannot, both leave the file system as it was. The number
of lines of that text is the number of entries plus the number of newline characters inside
the entries, hence exactly the number of entries when no entry contains a newline. -/
theorem save_text (entries : List String) (filename : String) (files : FileSystem) :
    (files.canOpen filename = true →
      (SRP.SavingManager.save (SRP.SRPJournal.build entries) filename files).content filename
        = some (String.join (entries.map fun e => e ++ "\n")) ∧
      (SRP.Journal.save (SRP.Journal.build entries) filename files).content filename
        = some (String.join (entries.map fun e => e ++ "\n"))) ∧
    (files.canOpen filename = false →
      SRP.SavingManager.save (SRP.SRPJournal.build entries) filename files = files ∧
      SRP.Journal.save (SRP.Journal.build entries) filename files = files) ∧
    lineCount (String.join (entries.map fun e => e ++ "\n"))
      = entries.length + innerNewlines entries ∧
    ((∀ e ∈ entries, Char.ofNat 10 ∉ e.data) →
      lineCount (String.join (entries.map fun e => e ++ "\n")) = entries.length) := by
  have hl : lineCount (String.join (entries.map fun e => e ++ "\n"))
      = entries.length + innerNewlines entries := by
    rw [← appendLoop_eq_join, lineCount, writeLoop_data]
    show List.count _ ([] ++ _) = _
    rw [List.nil_append, count_newline_lines]
  have e1 : (SRP.SRPJournal.build entries).get_entries = entries := by
    simp [SRP.SRPJournal.get_entries, SRP.SRPJournal.build, SRPJournal_build_entries]
  have e2 : (SRP.Journal.build entries).m_entries = entries := by
    simp [SRP.Journal.build, Journal_build_entries]
  refine ⟨fun h => ⟨?_, ?_⟩, fun h => ⟨?_, ?_⟩, hl,
    fun h => by rw [hl, innerNewlines_eq_zero entries h]; rfl⟩
  · rw [SRP.SavingManager.save, e1]
    exact (save_body entries filename files).1 h
  · rw [SRP.Journal.save, e2]
    exact (save_body entries filename files).1 h
  · rw [SRP.SavingManager.save, e1]
    exact (save_body entries filename files).2 h
  · rw [SRP.Journal.save, e2]
    exact (save_body entries filename files).2 h

theorem save_text_witness :
    FileSystem.blank.canOpen "diary.txt" = true ∧
      (SRP.SavingManager.save
        (SRP.SRPJournal.build ["Dear XYZ", "I ate a bug", "I cried today"]) "diary.txt"
        FileSystem.blank).content "diary.txt"
        = some (String.join
          (["Dear XYZ", "I ate a bug", "I cried today"].map fun e => e ++ "\n")) ∧
      FileSystem.blank.canOpen "" = false ∧
      SRP.SavingManager.save
        (SRP.SRPJournal.build ["Dear XYZ", "I ate a bug", "I cried today"]) ""
        FileSystem.blank = FileSystem.blank ∧
      (∀ e ∈ ["Dear XYZ", "I ate a bug", "I cried today"], Char.ofNat 10 ∉ e.data) ∧
      lineCount (String.join
        (["Dear XYZ", "I ate a bug", "I cried today"].map fun e => e ++ "\n")) = 3 :=
  ⟨by decide,
    ((save_text ["Dear XYZ", "I ate a bug", "I cried today"] "diary.txt" FileSystem.blank).1
      (by decide)).1,
    by decide,
    ((save_text ["Dear XYZ", "I ate a bug", "I cried today"] "" FileSystem.blank).2.1
      (by decide)).1,
    by decide,
    (save_text ["Dear XYZ", "I ate a bug", "I cried today"] "diary.txt" FileSystem.blank).2.2.2
      (by decide)⟩

/-! ## The filters -/

/-- A loop that pushes the accepted items onto `result` computes `List.filter`. -/
theorem foldl_push_eq_filter {α : Type} (p : α → Bool) (items acc : List α) :
    items.foldl (fun result x => if p x then result ++ [x] else result) acc
      = acc ++ items.filter p := by
  induction items generalizing acc with
  | nil => simp
  | cons x t ih =>
    by_cases hx : p x = true
    · simp [List.foldl_cons, ih, hx, List.filter_cons]
    · simp [List.foldl_cons, ih, hx, List.filter_cons]

theorem BetterFilter_filter_eq (items : OCP.Items) (spec : OCP.Specification OCP.Product) :
    OCP.BetterFilter.filter items spec = items.filter spec.is_satisfied := by
  rw [OCP.BetterFilter.filter, foldl_push_eq_filter spec.is_satisfied items []]
  rfl

theorem filter_loop_eq {G : Type} (spec : OCP.Stateful.Specification G) (items acc : List Nat)
    (st : OCP.Store G) :
    items.foldl
        (fun acc p =>
          if (spec.is_satisfied p acc.2).1 then (acc.1 ++ [p], (spec.is_satisfied p acc.2).2)
          else (acc.1, (spec.is_satisfied p acc.2).2))
        (acc, st)
      = (acc ++ (OCP.Stateful.acceptedInOrder spec items st).1,
          (OCP.Stateful.acceptedInOrder spec items st).2) := by
  induction items generalizing acc st with
  | nil => simp [OCP.Stateful.acceptedInOrder]
  | cons p t ih =>
    by_cases hp : (spec.is_satisfied p st).1 = true
    · simp [List.foldl_cons, hp, ih, OCP.Stateful.acceptedInOrder]
    · simp [List.foldl_cons, hp, ih, OCP.Stateful.acceptedInOrder]

theorem stateful_filter_eq {G : Type} (items : List Nat) (spec : OCP.Stateful.Specification G)
    (st : OCP.Store G) :
    OCP.Stateful.BetterFilter.filter items spec st
      = OCP.Stateful.acceptedInOrder spec items st := by
  rw [OCP.Stateful.BetterFilter.filter, filter_loop_eq]
  rfl

theorem acceptedInOrder_sublist {G : Type} (spec : OCP.Stateful.Specification G)
    (items : List Nat) (st : OCP.Store G) :
    (OCP.Stateful.acceptedInOrder spec items st).1.Sublist items := by
  induction items generalizing st with
  | nil => exact List.Sublist.slnil
  | cons p t ih =>
    by_cases hp : (spec.is_satisfied p st).1 = true
    · simp only [OCP.Stateful.acceptedInOrder, hp, if_true]
      exact List.Sublist.cons₂ p (ih _)
    · simp only [OCP.Stateful.acceptedInOrder, hp, if_false]
      exact List.Sublist.cons p (ih _)

theorem acceptedInOrder_readOnly {G : Type} (spec : OCP.Stateful.Specification G)
    (h : OCP.Stateful.ReadOnly spec) (items : List Nat) (st : OCP.Store G) :
    OCP.Stateful.acceptedInOrder spec items st
      = (items.filter fun p => (spec.is_satisfied p st).1, st) := by
  induction items with
  | nil => rfl
  | cons p t ih =>
    by_cases hp : (spec.is_satisfied p st).1 = true
    · simp [OCP.Stateful.acceptedInOrder, hp, h p st, ih, List.filter_cons]
    · simp [OCP.Stateful.acceptedInOrder, hp, h p st, ih, List.filter_cons]

theorem stateful_filter_readOnly {G : Type} (spec : OCP.Stateful.Specification G)
    (h : OCP.Stateful.ReadOnly spec) (items : List Nat) (st : OCP.Store G) :
    OCP.Stateful.BetterFilter.filter items spec st
      = (items.filter fun p => (spec.is_satisfied p st).1, st) := by
  rw [stateful_filter_eq, acceptedInOrder_readOnly spec h]

theorem readOnly_color {G : Type} (c : OCP.COLOR) :
    OCP.Stateful.ReadOnly (OCP.Stateful.ColorSpecification c : OCP.Stateful.Specification G) :=
  fun _ _ => rfl

theorem readOnly_size {G : Type} (z : OCP.SIZE) :
    OCP.Stateful.ReadOnly (OCP.Stateful.SizeSpecification z : OCP.Stateful.Specification G) :=
  fun _ _ => rfl

theorem readOnly_and {G : Type} (a b : OCP.Stateful.Specification G)
    (ha : OCP.Stateful.ReadOnly a) (hb : OCP.Stateful.ReadOnly b) :
    OCP.Stateful.ReadOnly (OCP.Stateful.operatorAnd a b) := by
  intro p st
  by_cases h : (a.is_satisfied p st).1 = true
  · simp [OCP.Stateful.operatorAnd, OCP.Stateful.AndSpecification, h, ha p st, hb p st]
  · simp [OCP.Stateful.operatorAnd, OCP.Stateful.AndSpecification, h, ha p st]

/-- On a specification that only looks at the product, the filter with state selects the
pointers whose product satisfies it and leaves the store alone; on the products behind the
pointers this is the filter of the restricted embedding. -/
theorem stateful_filter_ofPure {G : Type} (items : List Nat)
    (spec : OCP.Specification OCP.Product) (st : OCP.Store G) :
    OCP.Stateful.BetterFilter.filter items (OCP.Stateful.ofPure spec) st
        = (items.filter fun p => spec.is_satisfied (st.products p), st) ∧
      (OCP.Stateful.BetterFilter.filter items (OCP.Stateful.ofPure spec) st).1.map st.products
        = OCP.BetterFilter.filter (items.map st.products) spec := by
  have h : OCP.Stateful.BetterFilter.filter items (OCP.Stateful.ofPure spec) st
      = (items.filter fun p => spec.is_satisfied (st.products p), st) :=
    stateful_filter_readOnly _ (fun _ _ => rfl) items st
  refine ⟨h, ?_⟩
  rw [h, BetterFilter_filter_eq, List.filter_map]
  rfl

/-- C17 (refuted as stated): a specification with a mutable call counter that accepts on
every other call accepts the pointer 1 on its first call, yet from the input with that
pointer twice the filter returns it once. -/
theorem filter_drops_repeated_item :
    (OCP.Stateful.alternating.is_satisfied 1 (OCP.mainStore 0)).1 = true ∧
      List.count 1 [1, 1] = 2 ∧
      (OCP.Stateful.BetterFilter.filter [1, 1] OCP.Stateful.alternating (OCP.mainStore 0)).1
        = [1] :=
  ⟨rfl, rfl, rfl⟩

/-- C17 (amended): for every list of product pointers, every specification and every store,
`BetterFilter::filter` calls `is_satisfied` once per item from first to last and returns, in
input order, the occurrences whose call returned true, a sublist of the input. When the
specification leaves the store as it found it, as `ColorSpecification`, `SizeSpecification`
and their conjunction do, the result is exactly the items that satisfy it, each as many times
as it occurs in the input. On the five products of `main` the filter yields Apple, Tree,
Mountain for green, Tree, House, Mountain for large, and Tree, Mountain for green and
large. -/
theorem BetterFilter_filter_spec {G : Type} (items : List Nat)
    (spec : OCP.Stateful.Specification G) (st : OCP.Store G) :
    OCP.Stateful.BetterFilter.filter items spec st
      = OCP.Stateful.acceptedInOrder spec items st ∧
    (OCP.Stateful.BetterFilter.filter items spec st).1.Sublist items ∧
    (OCP.Stateful.ReadOnly spec →
      OCP.Stateful.BetterFilter.filter items spec st
        = (items.filter fun p => (spec.is_satisfied p st).1, st) ∧
      ∀ x : Nat, (OCP.Stateful.BetterFilter.filter items spec st).1.count x
        = if (spec.is_satisfied x st).1 then items.count x else 0) ∧
    (∀ (c : OCP.COLOR) (z : OCP.SIZE),
      OCP.Stateful.ReadOnly (OCP.Stateful.ColorSpecification c : OCP.Stateful.Specification G) ∧
      OCP.Stateful.ReadOnly (OCP.Stateful.SizeSpecification z : OCP.Stateful.Specification G) ∧
      OCP.Stateful.ReadOnly (OCP.Stateful.operatorAnd (OCP.Stateful.ColorSpecification c)
        (OCP.Stateful.SizeSpecification z) : OCP.Stateful.Specification G)) ∧
    (∀ g : G,
      (OCP.Stateful.BetterFilter.filter [0, 1, 2, 3, 4] (OCP.Stateful.ColorSpecification .GREEN)
        (OCP.mainStore g)).1.map (fun p => ((OCP.mainStore g).products p).m_name)
        = ["Apple", "Tree", "Mountain"] ∧
      (OCP.Stateful.BetterFilter.filter [0, 1, 2, 3, 4] (OCP.Stateful.SizeSpecification .LARGE)
        (OCP.mainStore g)).1.map (fun p => ((OCP.mainStore g).products p).m_name)
        = ["Tree", "House", "Mountain"] ∧
      (OCP.Stateful.BetterFilter.filter [0, 1, 2, 3, 4]
        (OCP.Stateful.operatorAnd (OCP.Stateful.ColorSpecification .GREEN)
          (OCP.Stateful.SizeSpecification .LARGE))
        (OCP.mainStore g)).1.map (fun p => ((OCP.mainStore g).products p).m_name)
        = ["Tree", "Mountain"]) := by
  refine ⟨stateful_filter_eq items spec st, ?_, ?_, ?_, fun g => ⟨rfl, rfl, rfl⟩⟩
  · rw [stateful_filter_eq]
    exact acceptedInOrder_sublist spec items st
  · intro h
    refine ⟨stateful_filter_readOnly spec h items st, fun x => ?_⟩
    rw [stateful_filter_readOnly spec h items st]
    by_cases hx : (spec.is_satisfied x st).1 = true
    · simp only [hx, if_true]
      exact List.count_filter (p := fun p => (spec.is_satisfied p st).1) hx
    · simp only [hx, if_false]
      exact List.count_eq_zero.2 (fun hm => hx (List.mem_filter.1 hm).2)
  · intro c z
    exact ⟨readOnly_color c, readOnly_size z,
      readOnly_and _ _ (readOnly_color c) (readOnly_size z)⟩

theorem BetterFilter_filter_spec_witness :
    OCP.Stateful.ReadOnly
        (OCP.Stateful.ColorSpecification .GREEN : OCP.Stateful.Specification Nat) ∧
      OCP.Stateful.BetterFilter.filter [1, 1] (OCP.Stateful.ColorSpecification .GREEN)
          (OCP.mainStore 0)
        = ([1, 1].filter fun p =>
            ((OCP.Stateful.ColorSpecification .GREEN : OCP.Stateful.Specification
              Nat).is_satisfied p (OCP.mainStore 0)).1, OCP.mainStore 0) ∧
      (OCP.Stateful.BetterFilter.filter [1, 1] (OCP.Stateful.ColorSpecification .GREEN)
          (OCP.mainStore 0)).1 = [1, 1] :=
  ⟨readOnly_color .GREEN,
    ((BetterFilter_filter_spec [1, 1] (OCP.Stateful.ColorSpecification .GREEN)
      (OCP.mainStore 0)).2.2.1 (readOnly_color .GREEN)).1, rfl⟩

/-- C18: for every list of products, colour `c` and size `s`, `BetterFilter::filter` with
`ColorSpecification(c)` equals `ProductFilter::by_color`, with `SizeSpecification(s)` equals
`ProductFilter::by_size`, and with `SizeSpecification(s) && ColorSpecification(c)` equals
`ProductFilter::by_size_and_color`. -/
theorem BetterFilter_agrees_with_ProductFilter (items : OCP.Items) (c : OCP.COLOR)
    (s : OCP.SIZE) :
    OCP.BetterFilter.filter items (OCP.ColorSpecification c)
        = OCP.ProductFilter.by_color items c ∧
      OCP.BetterFilter.filter items (OCP.SizeSpecification s)
        = OCP.ProductFilter.by_size items s ∧
      OCP.BetterFilter.filter items
          (OCP.operatorAnd (OCP.SizeSpecification s) (OCP.ColorSpecification c))
        = OCP.ProductFilter.by_size_and_color items s c :=
  ⟨rfl, rfl, rfl⟩

end DesignPattern
